import Mathlib

/-!
Verification of the rust-matc Matter controller library.

Each Rust module that the verified claims touch is embedded shallowly as a
Lean namespace of the same name (`tlv`, `messages`, `session`, `fabric`,
`onboarding`, `spake2p`, `commission`, `transport`, `active_connection`).
Machine integers are modelled as `Nat` (or `Int` for Rust's signed types)
with explicit `% 2^w` reductions where the Rust type would wrap; byte
strings are `List Nat` with every element below 256; fallible Rust code
returning `Result`/`io::Result` is modelled with `Option` or `Except`.
External cryptographic primitives (SHA-256, HMAC, HKDF, PBKDF2, AES-CCM,
the P-256 group) are library calls in the Rust code, not code of this
repository; they are taken as parameters of the embedding, the P-256 group
abstracted as a module over a commutative ring of scalars.
-/

namespace bytes

/-- Little-endian encoding of the low 16 bits of a natural number,
modelling `WriteBytesExt::write_u16::<LittleEndian>`. -/
def u16le (v : Nat) : List Nat := [v % 256, v / 256 % 256]

/-- Little-endian encoding of the low 32 bits, modelling `write_u32::<LittleEndian>`. -/
def u32le (v : Nat) : List Nat :=
  [v % 256, v / 256 % 256, v / 65536 % 256, v / 16777216 % 256]

/-- Little-endian encoding of the low 64 bits, modelling `write_u64::<LittleEndian>`. -/
def u64le (v : Nat) : List Nat :=
  [v % 256, v / 256 % 256, v / 65536 % 256, v / 16777216 % 256,
   v / 4294967296 % 256, v / 1099511627776 % 256, v / 281474976710656 % 256,
   v / 72057594037927936 % 256]

/-- Big-endian encoding of the low 64 bits, modelling `write_u64::<BigEndian>`. -/
def u64be (v : Nat) : List Nat := (u64le v).reverse

/-- Value of a little-endian byte list. -/
def leVal (bs : List Nat) : Nat := bs.foldr (fun b acc => b % 256 + 256 * acc) 0

/-- Read one byte from a cursor, modelling `ReadBytesExt::read_u8`:
fails on an exhausted cursor. -/
def readU8 : List Nat → Option (Nat × List Nat)
  | [] => none
  | b :: r => some (b % 256, r)

/-- Read exactly `n` bytes, modelling `Read::read_exact`. -/
def readBytes (n : Nat) (l : List Nat) : Option (List Nat × List Nat) :=
  if n ≤ l.length then some (l.take n, l.drop n) else none

/-- Read a little-endian `u16`, modelling `read_u16::<LittleEndian>`. -/
def readU16le (l : List Nat) : Option (Nat × List Nat) := do
  let (bs, r) ← readBytes 2 l
  pure (leVal bs, r)

/-- Read a little-endian `u32`, modelling `read_u32::<LittleEndian>`. -/
def readU32le (l : List Nat) : Option (Nat × List Nat) := do
  let (bs, r) ← readBytes 4 l
  pure (leVal bs, r)

/-- Read a little-endian `u64`, modelling `read_u64::<LittleEndian>`. -/
def readU64le (l : List Nat) : Option (Nat × List Nat) := do
  let (bs, r) ← readBytes 8 l
  pure (leVal bs, r)

end bytes

namespace tlv

open bytes

/-! Type control constants of `src/tlv.rs`. -/

def TYPE_INT_1 : Nat := 0
def TYPE_INT_2 : Nat := 1
def TYPE_INT_4 : Nat := 2
def TYPE_UINT_1 : Nat := 4
def TYPE_UINT_2 : Nat := 5
def TYPE_UINT_4 : Nat := 6
def TYPE_UINT_8 : Nat := 7
def TYPE_BOOL_FALSE : Nat := 8
def TYPE_BOOL_TRUE : Nat := 9
def TYPE_UTF8_L1 : Nat := 0xC
def TYPE_OCTET_STRING_L1 : Nat := 0x10
def TYPE_OCTET_STRING_L2 : Nat := 0x11
def TYPE_STRUCT : Nat := 0x15
def TYPE_ARRAY : Nat := 0x16
def TYPE_LIST : Nat := 0x17
def TYPE_END_CONTAINER : Nat := 0x18
def CTRL_CTX_L1 : Nat := 0x20

/-- Two's-complement byte of an `i8`, as written by `write_i8`. -/
def i8byte (v : Int) : Nat := (v % 256).toNat

/-- Two's-complement 16-bit value of an `i16`, as written by
`write_i16::<LittleEndian>`. -/
def i16val (v : Int) : Nat := (v % 65536).toNat

/-! The `TlvBuffer` writers of `src/tlv.rs`.  A `TlvBuffer` is an append-only
byte vector, so each writer is modelled by the byte list it appends. -/

def write_anon_struct : List Nat := [TYPE_STRUCT]

def write_anon_list : List Nat := [TYPE_LIST]

def write_struct (tag : Nat) : List Nat := [CTRL_CTX_L1 + TYPE_STRUCT, tag % 256]

def write_array (tag : Nat) : List Nat := [CTRL_CTX_L1 + TYPE_ARRAY, tag % 256]

def write_list (tag : Nat) : List Nat := [CTRL_CTX_L1 + TYPE_LIST, tag % 256]

def write_struct_end : List Nat := [TYPE_END_CONTAINER]

/-- `write_string`: the Rust argument is a `&str`; it is modelled by its
UTF-8 byte sequence.  The length prefix is `bytes.len() as u8`. -/
def write_string (tag : Nat) (data : List Nat) : List Nat :=
  [CTRL_CTX_L1 + TYPE_UTF8_L1, tag % 256, data.length % 256] ++ data

def write_octetstring (tag : Nat) (data : List Nat) : List Nat :=
  if data.length > 0xff then
    [CTRL_CTX_L1 + TYPE_OCTET_STRING_L2, tag % 256] ++ u16le data.length ++ data
  else
    [CTRL_CTX_L1 + TYPE_OCTET_STRING_L1, tag % 256, data.length % 256] ++ data

def write_int8 (tag : Nat) (v : Int) : List Nat :=
  [CTRL_CTX_L1 + TYPE_INT_1, tag % 256, i8byte v]

def write_int16 (tag : Nat) (v : Int) : List Nat :=
  [CTRL_CTX_L1 + TYPE_INT_2, tag % 256] ++ u16le (i16val v)

def write_uint8 (tag : Nat) (v : Nat) : List Nat :=
  [CTRL_CTX_L1 + TYPE_UINT_1, tag % 256, v % 256]

def write_uint16 (tag : Nat) (v : Nat) : List Nat :=
  [CTRL_CTX_L1 + TYPE_UINT_2, tag % 256] ++ u16le v

def write_uint32 (tag : Nat) (v : Nat) : List Nat :=
  [CTRL_CTX_L1 + TYPE_UINT_4, tag % 256] ++ u32le v

def write_uint64 (tag : Nat) (v : Nat) : List Nat :=
  [CTRL_CTX_L1 + TYPE_UINT_8, tag % 256] ++ u64le v

def write_bool (tag : Nat) (v : Bool) : List Nat :=
  [CTRL_CTX_L1 + (if v then TYPE_BOOL_TRUE else TYPE_BOOL_FALSE), tag % 256]

/-- UTF-8 validity of a byte sequence (RFC 3629), the success condition of
`String::from_utf8` used by the decoder's string branch.  A Rust `String`
always satisfies it. -/
def validUtf8 : List Nat → Bool
  | [] => true
  | b :: r =>
    if b < 0x80 then validUtf8 r
    else if 0xC2 ≤ b && b ≤ 0xDF then
      match r with
      | c1 :: r1 => (0x80 ≤ c1 && c1 ≤ 0xBF) && validUtf8 r1
      | _ => false
    else if b = 0xE0 then
      match r with
      | c1 :: c2 :: r1 =>
          (0xA0 ≤ c1 && c1 ≤ 0xBF) && (0x80 ≤ c2 && c2 ≤ 0xBF) && validUtf8 r1
      | _ => false
    else if (0xE1 ≤ b && b ≤ 0xEC) || b = 0xEE || b = 0xEF then
      match r with
      | c1 :: c2 :: r1 =>
          (0x80 ≤ c1 && c1 ≤ 0xBF) && (0x80 ≤ c2 && c2 ≤ 0xBF) && validUtf8 r1
      | _ => false
    else if b = 0xED then
      match r with
      | c1 :: c2 :: r1 =>
          (0x80 ≤ c1 && c1 ≤ 0x9F) && (0x80 ≤ c2 && c2 ≤ 0xBF) && validUtf8 r1
      | _ => false
    else if b = 0xF0 then
      match r with
      | c1 :: c2 :: c3 :: r1 =>
          (0x90 ≤ c1 && c1 ≤ 0xBF) && (0x80 ≤ c2 && c2 ≤ 0xBF) &&
            (0x80 ≤ c3 && c3 ≤ 0xBF) && validUtf8 r1
      | _ => false
    else if 0xF1 ≤ b && b ≤ 0xF3 then
      match r with
      | c1 :: c2 :: c3 :: r1 =>
          (0x80 ≤ c1 && c1 ≤ 0xBF) && (0x80 ≤ c2 && c2 ≤ 0xBF) &&
            (0x80 ≤ c3 && c3 ≤ 0xBF) && validUtf8 r1
      | _ => false
    else if b = 0xF4 then
      match r with
      | c1 :: c2 :: c3 :: r1 =>
          (0x80 ≤ c1 && c1 ≤ 0x8F) && (0x80 ≤ c2 && c2 ≤ 0xBF) &&
            (0x80 ≤ c3 && c3 ≤ 0xBF) && validUtf8 r1
      | _ => false
    else false

mutual

/-- `enum TlvItemValue`, the value of a decoded tlv element.  `Int` carries
the `u64` the decoder produced; `String` carries the UTF-8 bytes of the
Rust `String`. -/
inductive TlvItemValue where
  | Int (v : Nat)
  | Bool (b : Bool)
  | String (s : List Nat)
  | OctetString (o : List Nat)
  | List (items : List TlvItem)
  | Nil
  | Invalid


/-- `struct TlvItem { tag: u8, value: TlvItemValue }`. -/
inductive TlvItem where
  | mk (tag : Nat) (value : TlvItemValue)


end

def TlvItem.tag : TlvItem → Nat
  | .mk t _ => t

def TlvItem.value : TlvItem → TlvItemValue
  | .mk _ v => v

mutual

/-- `enum TlvItemValueEnc`, the document-style encoder input. -/
inductive TlvItemValueEnc where
  | Int8 (v : Int)
  | Int16 (v : Int)
  | UInt8 (v : Nat)
  | UInt16 (v : Nat)
  | UInt32 (v : Nat)
  | UInt64 (v : Nat)
  | Bool (b : Bool)
  | String (s : List Nat)
  | OctetString (o : List Nat)
  | StructAnon (items : List TlvItemEnc)
  | StructInvisible (items : List TlvItemEnc)
  | Invalid


/-- `struct TlvItemEnc { tag: u8, value: TlvItemValueEnc }`. -/
inductive TlvItemEnc where
  | mk (tag : Nat) (value : TlvItemValueEnc)


end

def TlvItemEnc.tag : TlvItemEnc → Nat
  | .mk t _ => t

def TlvItemEnc.value : TlvItemEnc → TlvItemValueEnc
  | .mk _ v => v

mutual

/-- `TlvItemEnc::encode_internal`: the bytes a single item appends to the
buffer.  The `Invalid` arm is `todo!()` in the source (a panic), modelled
as `none`. -/
def TlvItemEnc.encode_internal : TlvItemEnc → Option (List Nat)
  | .mk tag v => TlvItemValueEnc.encode_internal tag v

def TlvItemValueEnc.encode_internal : Nat → TlvItemValueEnc → Option (List Nat)
  | tag, .Int8 v => some (write_int8 tag v)
  | tag, .Int16 v => some (write_int16 tag v)
  | tag, .UInt8 v => some (write_uint8 tag v)
  | tag, .UInt16 v => some (write_uint16 tag v)
  | tag, .UInt32 v => some (write_uint32 tag v)
  | tag, .UInt64 v => some (write_uint64 tag v)
  | tag, .Bool b => some (write_bool tag b)
  | tag, .String s => some (write_string tag s)
  | tag, .OctetString o => some (write_octetstring tag o)
  | _tag, .StructAnon items => do
      pure (write_anon_struct ++ (← TlvItemEnc.encodeList items) ++ write_struct_end)
  | _tag, .StructInvisible items => TlvItemEnc.encodeList items
  | _tag, .Invalid => none

def TlvItemEnc.encodeList : List TlvItemEnc → Option (List Nat)
  | [] => some []
  | x :: xs => do pure ((← TlvItemEnc.encode_internal x) ++ (← TlvItemEnc.encodeList xs))

end

/-- `TlvItemEnc::encode`: encode into a fresh buffer. -/
def TlvItemEnc.encode (e : TlvItemEnc) : Option (List Nat) := e.encode_internal

/-- `read_tag`: the context tag byte is consumed only when the tag-control
bits equal 1. -/
def read_tag (tagctrl : Nat) (l : List Nat) : Option (Nat × List Nat) :=
  if tagctrl = 1 then readU8 l else some (0, l)

/-- `value as u64` for the value read by `read_i32::<LittleEndian>`:
sign-extension of a 32-bit two's-complement value to 64 bits. -/
def i32AsU64 (v : Nat) : Nat := if v < 2 ^ 31 then v else v + (2 ^ 64 - 2 ^ 32)

/-- The recursive decoder loop `decode` of `src/tlv.rs`.  The Rust code
loops reading elements from a cursor until the cursor is exhausted or an
end-of-container byte is met; in both cases it returns, leaving any bytes
after the end-of-container unconsumed.  The loop-and-recurse structure is
modelled with a `fuel` bound on the call depth; `decode_tlv` passes
`data.length + 1` which is sufficient for every input the encoder can
produce (each nested call strictly advances the cursor).  `none` models
`Err` (short buffer / unknown type byte). -/
def decodeList : Nat → List Nat → Option (List TlvItem × List Nat)
  | 0, _ => none
  | _ + 1, [] => some ([], [])
  | fuel + 1, fb :: rest =>
    let tp := fb % 0x20
    let tagctrl := fb / 0x20
    match read_tag tagctrl rest with
    | none => none
    | some (tag, r1) =>
      let push : TlvItem → List Nat → Option (List TlvItem × List Nat) := fun item r2 =>
        match decodeList fuel r2 with
        | none => none
        | some (items, r3) => some (item :: items, r3)
      if tp = TYPE_INT_1 then
        match readU8 r1 with
        | none => none
        | some (v, r2) => push (.mk tag (.Int v)) r2
      else if tp = TYPE_INT_4 then
        match readU32le r1 with
        | none => none
        | some (v, r2) => push (.mk tag (.Int (i32AsU64 v))) r2
      else if tp = TYPE_UINT_1 then
        match readU8 r1 with
        | none => none
        | some (v, r2) => push (.mk tag (.Int v)) r2
      else if tp = TYPE_UINT_2 then
        match readU16le r1 with
        | none => none
        | some (v, r2) => push (.mk tag (.Int v)) r2
      else if tp = TYPE_UINT_4 then
        match readU32le r1 with
        | none => none
        | some (v, r2) => push (.mk tag (.Int v)) r2
      else if tp = TYPE_UINT_8 then
        match readU64le r1 with
        | none => none
        | some (v, r2) => push (.mk tag (.Int v)) r2
      else if tp = TYPE_BOOL_FALSE then
        push (.mk tag (.Bool false)) r1
      else if tp = TYPE_BOOL_TRUE then
        push (.mk tag (.Bool true)) r1
      else if tp = TYPE_UTF8_L1 then
        match readU8 r1 with
        | none => none
        | some (size, r2) =>
          match readBytes size r2 with
          | none => none
          | some (value, r3) =>
            push (.mk tag (if validUtf8 value then .String value else .Invalid)) r3
      else if tp = TYPE_OCTET_STRING_L1 then
        match readU8 r1 with
        | none => none
        | some (size, r2) =>
          match readBytes size r2 with
          | none => none
          | some (value, r3) => push (.mk tag (.OctetString value)) r3
      else if tp = TYPE_OCTET_STRING_L2 then
        match readU16le r1 with
        | none => none
        | some (size, r2) =>
          match readBytes size r2 with
          | none => none
          | some (value, r3) => push (.mk tag (.OctetString value)) r3
      else if tp = TYPE_STRUCT then
        match decodeList fuel r1 with
        | none => none
        | some (c2, r2) => push (.mk tag (.List c2)) r2
      else if tp = TYPE_ARRAY then
        match decodeList fuel r1 with
        | none => none
        | some (c2, r2) => push (.mk tag (.List c2)) r2
      else if tp = TYPE_LIST then
        match decodeList fuel r1 with
        | none => none
        | some (c2, r2) => push (.mk tag (.List c2)) r2
      else if tp = TYPE_END_CONTAINER then
        some ([], r1)
      else if tp = 0x14 then
        push (.mk tag .Nil) r1
      else
        none

/-- `decode_tlv`: decode a raw buffer.  A single top-level item is
returned directly; otherwise the items are wrapped in a tag-0 list. -/
def decode_tlv (data : List Nat) : Option TlvItem :=
  match decodeList (data.length + 1) data with
  | none => none
  | some (container, _) =>
    match container with
    | [i] => some i
    | _ => some (.mk 0 (.List container))

mutual

/-- The decoded form of an encoder item: the correspondence between
`TlvItemEnc` and the `TlvItem` tree `decode_tlv` rebuilds from its
encoding.  On values inside the Rust types' ranges it is the identity
embedding, except that a signed byte comes back as its unsigned
two's-complement byte value and an anonymous struct always carries tag 0
(its `tag` field is not written by the encoder).  The arms for `Int16`,
`StructInvisible` and `Invalid` are unused (excluded by `wfItem`). -/
def embedItem : TlvItemEnc → TlvItem
  | .mk tag v => embedValue tag v

def embedValue : Nat → TlvItemValueEnc → TlvItem
  | tag, .Int8 v => .mk (tag % 256) (.Int (i8byte v))
  | tag, .Int16 _ => .mk (tag % 256) .Invalid
  | tag, .UInt8 v => .mk (tag % 256) (.Int (v % 256))
  | tag, .UInt16 v => .mk (tag % 256) (.Int (v % 2 ^ 16))
  | tag, .UInt32 v => .mk (tag % 256) (.Int (v % 2 ^ 32))
  | tag, .UInt64 v => .mk (tag % 256) (.Int (v % 2 ^ 64))
  | tag, .Bool b => .mk (tag % 256) (.Bool b)
  | tag, .String s => .mk (tag % 256) (.String s)
  | tag, .OctetString o => .mk (tag % 256) (.OctetString o)
  | _, .StructAnon items => .mk 0 (.List (embedList items))
  | tag, .StructInvisible _ => .mk (tag % 256) .Invalid
  | tag, .Invalid => .mk (tag % 256) .Invalid

def embedList : List TlvItemEnc → List TlvItem
  | [] => []
  | x :: xs => embedItem x :: embedList xs

end

mutual

/-- Encoder items whose encoding the decoder inverts: everything except
`Int16` (the decoder has no arm for type byte 1), `StructInvisible`
(deliberately flattened), `Invalid` (the encoder panics), over-long
strings (the 1-byte length prefix truncates past 255 bytes) and octet
strings past 65535 bytes. -/
def wfItem : TlvItemEnc → Bool
  | .mk _ v => wfValue v

def wfValue : TlvItemValueEnc → Bool
  | .Int8 _ => true
  | .Int16 _ => false
  | .UInt8 _ => true
  | .UInt16 _ => true
  | .UInt32 _ => true
  | .UInt64 _ => true
  | .Bool _ => true
  | .String s => validUtf8 s && decide (s.length < 256)
  | .OctetString o => decide (o.length < 65536)
  | .StructAnon items => wfList items
  | .StructInvisible _ => false
  | .Invalid => false

def wfList : List TlvItemEnc → Bool
  | [] => true
  | x :: xs => wfItem x && wfList xs

end

mutual

/-- Number of tree nodes; bounds the decoder fuel an encoding needs. -/
def sizeItem : TlvItemEnc → Nat
  | .mk _ v => sizeValue v

def sizeValue : TlvItemValueEnc → Nat
  | .StructAnon items => 1 + sizeList items
  | .StructInvisible items => 1 + sizeList items
  | _ => 1

def sizeList : List TlvItemEnc → Nat
  | [] => 0
  | x :: xs => sizeItem x + sizeList xs

end

end tlv

namespace messages

open bytes

/-- `struct MessageHeader` of `src/messages.rs`. -/
structure MessageHeader where
  flags : Nat
  security_flags : Nat
  session_id : Nat
  message_counter : Nat
  source_node_id : Option (List Nat)
  destination_node_id : Option (List Nat)
  deriving DecidableEq

def MessageHeader.FLAG_SRC_PRESENT : Nat := 4
def MessageHeader.DSIZ_64 : Nat := 1
def MessageHeader.DSIZ_16 : Nat := 2

/-- `MessageHeader::encode`: the flags byte is recomputed from the node-id
fields (the stored `flags` is ignored); a source node id is written only
when it is exactly 8 bytes; a destination node id is written whatever its
length, though the size flags are set only for 2 or 8 bytes. -/
def MessageHeader.encode (h : MessageHeader) : List Nat :=
  let srcFlag : Nat :=
    match h.source_node_id with
    | some sn => if sn.length = 8 then MessageHeader.FLAG_SRC_PRESENT else 0
    | none => 0
  let dstFlag : Nat :=
    match h.destination_node_id with
    | some dn =>
        if dn.length = 2 then MessageHeader.DSIZ_16
        else if dn.length = 8 then MessageHeader.DSIZ_64
        else 0
    | none => 0
  [srcFlag + dstFlag] ++ u16le h.session_id ++ [h.security_flags % 256] ++
    u32le h.message_counter ++
    (match h.source_node_id with
     | some sn => if sn.length = 8 then sn else []
     | none => []) ++
    (match h.destination_node_id with
     | some dn => dn
     | none => [])

/-- `MessageHeader::decode`: returns the header and the unread rest. -/
def MessageHeader.decode (data : List Nat) : Option (MessageHeader × List Nat) := do
  let (flags, r1) ← readU8 data
  let (session_id, r2) ← readU16le r1
  let (security_flags, r3) ← readU8 r2
  let (message_counter, r4) ← readU32le r3
  let (source_node_id, r5) ←
    if flags &&& MessageHeader.FLAG_SRC_PRESENT ≠ 0 then do
      let (sn, r5) ← readBytes 8 r4
      pure (some sn, r5)
    else pure (none, r4)
  let (destination_node_id, r6) ←
    if flags &&& 3 ≠ 0 then
      let dst_size : Nat :=
        if flags &&& 3 = MessageHeader.DSIZ_64 then 8
        else if flags &&& 3 = MessageHeader.DSIZ_16 then 2
        else 0
      if dst_size > 0 then do
        let (dn, r6) ← readBytes dst_size r5
        pure (some dn, r6)
      else pure (none, r5)
    else pure (none, r5)
  pure
    ({ flags := flags, security_flags := security_flags, session_id := session_id,
       message_counter := message_counter, source_node_id := source_node_id,
       destination_node_id := destination_node_id }, r6)

/-- `struct ProtocolMessageHeader`. -/
structure ProtocolMessageHeader where
  exchange_flags : Nat
  opcode : Nat
  exchange_id : Nat
  protocol_id : Nat
  ack_counter : Nat
  deriving DecidableEq

def ProtocolMessageHeader.FLAG_INITIATOR : Nat := 1
def ProtocolMessageHeader.FLAG_ACK : Nat := 2
def ProtocolMessageHeader.FLAG_RELIABILITY : Nat := 4
def ProtocolMessageHeader.OPCODE_ACK : Nat := 0x10
def ProtocolMessageHeader.OPCODE_STATUS : Nat := 0x40
def ProtocolMessageHeader.INTERACTION_OPCODE_INVOKE_REQ : Nat := 0x8
def ProtocolMessageHeader.PROTOCOL_ID_SECURE_CHANNEL : Nat := 0
def ProtocolMessageHeader.PROTOCOL_ID_INTERACTION : Nat := 1

/-- `ProtocolMessageHeader::encode`: the ack counter is written only when
`FLAG_ACK` is set. -/
def ProtocolMessageHeader.encode (h : ProtocolMessageHeader) : List Nat :=
  [h.exchange_flags % 256, h.opcode % 256] ++ u16le h.exchange_id ++
    u16le h.protocol_id ++
    (if h.exchange_flags &&& ProtocolMessageHeader.FLAG_ACK ≠ 0 then
      u32le h.ack_counter
    else [])

/-- `ProtocolMessageHeader::decode`. -/
def ProtocolMessageHeader.decode (data : List Nat) :
    Option (ProtocolMessageHeader × List Nat) := do
  let (exchange_flags, r1) ← readU8 data
  let (opcode, r2) ← readU8 r1
  let (exchange_id, r3) ← readU16le r2
  let (protocol_id, r4) ← readU16le r3
  let (ack_counter, r5) ←
    if exchange_flags &&& ProtocolMessageHeader.FLAG_ACK ≠ 0 then readU32le r4
    else pure (0, r4)
  pure
    ({ exchange_flags := exchange_flags, opcode := opcode, exchange_id := exchange_id,
       protocol_id := protocol_id, ack_counter := ack_counter }, r5)

/-- `struct StatusReportInfo`. -/
structure StatusReportInfo where
  general_code : Nat
  protocol_id : Nat
  protocol_code : Nat
  deriving DecidableEq

/-- `StatusReportInfo::parse`: 8 fixed little-endian bytes. -/
def StatusReportInfo.parse (data : List Nat) : Option StatusReportInfo := do
  let (general_code, r1) ← readU16le data
  let (protocol_id, r2) ← readU32le r1
  let (protocol_code, _) ← readU16le r2
  pure { general_code := general_code, protocol_id := protocol_id,
         protocol_code := protocol_code }

def StatusReportInfo.is_ok (s : StatusReportInfo) : Bool :=
  s.general_code = 0 && s.protocol_id = 0 && s.protocol_code = 0

/-- `struct Message`: a fully decoded datagram. -/
structure Message where
  message_header : MessageHeader
  protocol_header : ProtocolMessageHeader
  payload : List Nat
  tlv : tlv.TlvItem
  status_report_info : Option StatusReportInfo

/-- `Message::decode`: both headers, then either the status-report path
(Secure Channel opcode 0x40, tlv left `Invalid`) or the TLV path. -/
def Message.decode (data : List Nat) : Option Message := do
  let (message_header, rest) ← MessageHeader.decode data
  let (protocol_header, rest2) ← ProtocolMessageHeader.decode rest
  if protocol_header.protocol_id = ProtocolMessageHeader.PROTOCOL_ID_SECURE_CHANNEL ∧
      protocol_header.opcode = ProtocolMessageHeader.OPCODE_STATUS then do
    let status_report_info ← StatusReportInfo.parse rest2
    pure { message_header := message_header, protocol_header := protocol_header,
           payload := rest2, tlv := .mk 0 .Invalid,
           status_report_info := some status_report_info }
  else do
    let t ← tlv.decode_tlv rest2
    pure { message_header := message_header, protocol_header := protocol_header,
           payload := rest2, tlv := t, status_report_info := none }

/-- `messages::ack`: a standalone acknowledgement (Secure Channel opcode
0x10, flags INITIATOR|ACK, no reliability flag). -/
def ack (exchange : Nat) (a : Nat) : List Nat :=
  ProtocolMessageHeader.encode
    { exchange_flags := ProtocolMessageHeader.FLAG_INITIATOR + ProtocolMessageHeader.FLAG_ACK,
      opcode := ProtocolMessageHeader.OPCODE_ACK, exchange_id := exchange,
      protocol_id := ProtocolMessageHeader.PROTOCOL_ID_SECURE_CHANNEL,
      ack_counter := a % 2 ^ 32 }

/-- `messages::im_invoke_request`: protocol header (flags 5, Interaction
InvokeRequest) followed by the fixed TLV skeleton around the payload. -/
def im_invoke_request (endpoint cluster command exchange_id : Nat)
    (payload : List Nat) (timed : Bool) : List Nat :=
  ProtocolMessageHeader.encode
    { exchange_flags := 5, opcode := ProtocolMessageHeader.INTERACTION_OPCODE_INVOKE_REQ,
      exchange_id := exchange_id,
      protocol_id := ProtocolMessageHeader.PROTOCOL_ID_INTERACTION, ack_counter := 0 } ++
  tlv.write_anon_struct ++
  tlv.write_bool 0 false ++
  tlv.write_bool 1 timed ++
  tlv.write_array 2 ++
  tlv.write_anon_struct ++
  tlv.write_list 0 ++
  tlv.write_uint16 0 endpoint ++
  tlv.write_uint32 1 cluster ++
  tlv.write_uint32 2 command ++
  tlv.write_struct_end ++
  tlv.write_struct 1 ++
  payload ++
  tlv.write_struct_end ++
  tlv.write_struct_end ++
  tlv.write_struct_end ++
  tlv.write_uint8 0xff 10 ++
  tlv.write_struct_end

end messages

namespace session

open bytes

/-- `struct Session` of `src/session.rs`.  The `AtomicU32` counter is a
plain `Nat` below `2^32`; the 16-byte AES keys are byte lists. -/
structure Session where
  session_id : Nat
  my_session_id : Nat
  counter : Nat
  local_node : Option (List Nat)
  remote_node : Option (List Nat)
  encrypt_key : Option (List Nat)
  decrypt_key : Option (List Nat)

/-- `Session::new`: the counter starts at `rand::random::<u32>()`, an
arbitrary 32-bit value `r` supplied as a parameter of the embedding. -/
def Session.new (r : Nat) : Session :=
  { session_id := 0, my_session_id := 0, counter := r % 2 ^ 32,
    local_node := some [0, 0, 0, 0, 0, 0, 0, 0], remote_node := none,
    encrypt_key := none, decrypt_key := none }

/-- The static nonce builder of `src/session.rs` (its source name carries
an extern suffix, renamed here): `0x00 || counter_LE(4) || node` with an
8-byte zero fill when the node id is absent. -/
def make_nonce3_node (counter : Nat) (node : Option (List Nat)) : List Nat :=
  [0] ++ u32le counter ++
    (match node with
     | some s => s
     | none => [0, 0, 0, 0, 0, 0, 0, 0])

/-- `aes128_ccm_encrypt` and `aes128_ccm_decrypt` of `src/util/cryptoutil.rs`
wrap the external `ccm` crate; they are parameters of the embedding
(key → nonce → aad → message → result).  Decryption fails (`none`) on a
tag mismatch. -/
def CcmFn : Type := List Nat → List Nat → List Nat → List Nat → Option (List Nat)

/-- `Session::encode_message`: fetch-and-increment the counter (wrapping
at `2^32`), build the header, then append either the plaintext (no
encrypt key) or the AES-128-CCM ciphertext-with-tag computed with the
header bytes as aad.  Returns the datagram and the updated session. -/
def Session.encode_message (aes128_ccm_encrypt : CcmFn) (s : Session)
    (data : List Nat) : Option (List Nat) × Session :=
  let counter := s.counter
  let mg : messages.MessageHeader :=
    { flags := 0, security_flags := 0, session_id := s.session_id,
      message_counter := counter, source_node_id := s.local_node,
      destination_node_id := s.remote_node }
  let b := mg.encode
  let out :=
    match s.encrypt_key with
    | some key =>
        (aes128_ccm_encrypt key (make_nonce3_node counter s.local_node) b data).map
          (fun enc => b ++ enc)
    | none => some (b ++ data)
  (out, { s with counter := (counter + 1) % 2 ^ 32 })

/-- `Session::decode_message`: with no decrypt key the datagram is
returned unchanged; otherwise the header is decoded, the 16-bit session id
must equal `my_session_id` (mismatch is an error, `none`), and the rest is
decrypted with aad set to the header bytes. -/
def Session.decode_message (aes128_ccm_decrypt : CcmFn) (s : Session)
    (data : List Nat) : Option (List Nat) :=
  match s.decrypt_key with
  | none => some data
  | some key => do
      let (header, rest) ← messages.MessageHeader.decode data
      if header.session_id ≠ s.my_session_id then none
      else do
        let nonce := make_nonce3_node header.message_counter s.remote_node
        let add := data.take (data.length - rest.length)
        let decoded ← aes128_ccm_decrypt key nonce add rest
        pure (add ++ decoded)

/-- Iterate `encode_message`, collecting the produced datagrams. -/
def Session.encodeN (aes128_ccm_encrypt : CcmFn) (s : Session) (data : List Nat) :
    Nat → List (Option (List Nat)) × Session
  | 0 => ([], s)
  | n + 1 =>
      let (out, s1) := s.encode_message aes128_ccm_encrypt data
      let (outs, s2) := s1.encodeN aes128_ccm_encrypt data n
      (out :: outs, s2)

end session

namespace fabric

open bytes

/-- `hkdf_sha256` of `src/util/cryptoutil.rs` wraps the external `hkdf`
crate (salt → ikm → info → size → okm); a parameter of the embedding. -/
def HkdfFn : Type := List Nat → List Nat → List Nat → Nat → List Nat

/-- `struct Fabric` of `src/fabric.rs`. -/
structure Fabric where
  id : Nat
  ipk_epoch_key : List Nat
  ca_id : Nat
  ca_public_key : List Nat

/-- `Fabric::new`: the IPK epoch key is the fixed byte sequence
`00 01 .. 0f`; it is not an input. -/
def Fabric.new (fabric_id ca_id : Nat) (ca_public_key : List Nat) : Fabric :=
  { id := fabric_id,
    ipk_epoch_key := [0, 1, 2, 3, 4, 5, 6, 7, 8, 9, 0xa, 0xb, 0xc, 0xd, 0xe, 0xf],
    ca_id := ca_id, ca_public_key := ca_public_key }

/-- ASCII bytes of the HKDF info `CompressedFabric`. -/
def COMPRESSED_FABRIC_INFO : List Nat :=
  [67, 111, 109, 112, 114, 101, 115, 115, 101, 100, 70, 97, 98, 114, 105, 99]

/-- ASCII bytes of the HKDF info `GroupKey v1.0`. -/
def GROUP_KEY_INFO : List Nat :=
  [71, 114, 111, 117, 112, 75, 101, 121, 32, 118, 49, 46, 48]

/-- `Fabric::compressed`: HKDF over the big-endian fabric id as salt and
the CA public key without its leading byte as ikm. -/
def Fabric.compressed (hkdf_sha256 : HkdfFn) (f : Fabric) : List Nat :=
  hkdf_sha256 (u64be f.id) (f.ca_public_key.drop 1) COMPRESSED_FABRIC_INFO 8

/-- `Fabric::signed_ipk`. -/
def Fabric.signed_ipk (hkdf_sha256 : HkdfFn) (f : Fabric) : List Nat :=
  hkdf_sha256 (f.compressed hkdf_sha256) f.ipk_epoch_key GROUP_KEY_INFO 16

end fabric

namespace onboarding

/-- `struct OnboardingInfo`. -/
structure OnboardingInfo where
  discriminator : Nat
  passcode : Nat
  deriving DecidableEq

/-- Model of Rust `str::parse::<u32>` restricted to all-digit input (the
call sites pass decimal digit groups; sign prefixes, which `parse` also
accepts, are not modelled): fails on empty input, a non-digit, or a value
past `u32::MAX`. -/
def parse_u32 (s : List Char) : Option Nat :=
  if s.isEmpty then none
  else if s.all Char.isDigit then
    let v := s.foldl (fun acc c => acc * 10 + (c.toNat - 48)) 0
    if v < 2 ^ 32 then some v else none
  else none

/-- `decode_manual_pairing_code` of `src/onboarding.rs`: strip dashes,
slice off one, five and four digits (the eleventh digit is unread), parse
the three integers and combine.  The Rust slicing panics when fewer than
10 characters remain; modelled as `none`. -/
def decode_manual_pairing_code (code : List Char) : Option OnboardingInfo :=
  let norm := code.filter (fun c => c ≠ '-')
  if norm.length < 10 then none
  else do
    let first ← parse_u32 (norm.take 1)
    let second ← parse_u32 ((norm.drop 1).take 5)
    let third ← parse_u32 ((norm.drop 6).take 4)
    let passcode := (second &&& 0x3fff) ||| ((third <<< 14) % 2 ^ 32)
    let discriminator := (((first &&& 3) <<< 10) ||| ((second >>> 6) &&& 0x300)) % 2 ^ 16
    pure { discriminator := discriminator, passcode := passcode }

end onboarding

namespace transport

/-- The `Transport.connections` map `remote_addr → per-connection queue`,
modelled as an association list with unique keys (the `HashMap` of
`src/transport.rs`); each queue models the connection's mpsc channel. -/
def Connections : Type := List (String × List (List Nat))

/-- Append a datagram to the queue registered for `addr`; a datagram from
an unknown peer is dropped (`read_from_socket_loop` only sends when
`cons.get(&addr.to_string())` is `Some`). -/
def push_to_peer : Connections → String → List Nat → Connections
  | [], _, _ => []
  | (a, q) :: rest, addr, buf =>
      if a = addr then (a, q ++ [buf]) :: rest
      else (a, q) :: push_to_peer rest addr buf

/-- One iteration of `Transport::read_from_socket_loop` for an arriving
datagram: `recv_from` fills the `vec![0u8; 1024]` receive buffer, so at
most the first 1024 bytes of the datagram are kept (`n` is the number of
bytes copied and `buf.resize(n, 0)` keeps exactly them), then the bytes
go to the queue of the sending peer. -/
def read_from_socket_iteration (conns : Connections) (addr : String)
    (datagram : List Nat) : Connections :=
  push_to_peer conns addr (datagram.take 1024)

/-- `Connection::receive`: the next queued datagram, if any (a `None`
models the timeout/eof error). -/
def Connection.receive (q : List (List Nat)) : Option (List Nat) := q.head?

/-- `HashMap::get` on the connections map. -/
def lookup_queue : Connections → String → Option (List (List Nat))
  | [], _ => none
  | (a, q) :: rest, addr => if a = addr then some q else lookup_queue rest addr

end transport

namespace active_connection

def MAX_CACHED_COUNTERS : Nat := 32

/-- `struct ReceivedCounters`: the `HashSet` and the eviction `VecDeque`
always hold the same counters (inserted and evicted together), so a
single ordered list models both. -/
structure ReceivedCounters where
  order : List Nat
  max_size : Nat

def ReceivedCounters.new (max_size : Nat) : ReceivedCounters :=
  { order := [], max_size := max_size }

/-- `ReceivedCounters::insert`: `false` on a duplicate; otherwise append
and evict from the front while over `max_size` (the while-loop pops
`length - max_size` oldest entries). -/
def ReceivedCounters.insert (rc : ReceivedCounters) (counter : Nat) :
    Bool × ReceivedCounters :=
  if counter ∈ rc.order then (false, rc)
  else
    let order2 := rc.order ++ [counter]
    (true, { rc with order := order2.drop (order2.length - rc.max_size) })

/-- A message handed out of the read loop: to the caller waiting on the
exchange's oneshot, or to the event channel. -/
inductive Delivery where
  | toCaller (exchange_id : Nat) (m : messages.Message)
  | toEvent (m : messages.Message)

/-- The state `process_incoming` touches.  `pending_exchanges` keeps the
exchange ids holding a oneshot (the map's values are channel handles);
`unacked` keeps the counters of the retransmit buffer (the stored bytes
and `Instant` timestamps only matter to the retransmit timer, which is
outside this claim set); `sent` records every datagram passed to
`transport_conn.send`; `delivered` records every routed message. -/
structure ConnState where
  session : session.Session
  pending_exchanges : List Nat
  unacked : List Nat
  received_counters : ReceivedCounters
  sent : List (List Nat)
  delivered : List Delivery

/-- `send_ack`: build the standalone ack for the message's exchange and
counter, encode it through the session (which bumps the session counter),
and send it.  `false` when `encode_message` fails, in which case nothing
is sent and the error propagates. -/
def send_ack (enc : session.CcmFn) (st : ConnState) (m : messages.Message) :
    Bool × ConnState :=
  let ackBytes := messages.ack m.protocol_header.exchange_id
    m.message_header.message_counter
  let (out, s2) := st.session.encode_message enc ackBytes
  match out with
  | some datagram => (true, { st with session := s2, sent := st.sent ++ [datagram] })
  | none => (false, { st with session := s2 })

/-- `process_incoming` of `src/active_connection.rs`: decode via the
session (a failure is logged and dropped), parse the `Message` (a failure
propagates to the loop, which logs and continues), remove the acked
counter from `unacked` when `FLAG_ACK` is set, drop duplicates (sending an
ack for them), ack new messages that carry `FLAG_RELIABILITY`, swallow
standalone acks, and route everything else to the pending exchange's
caller or to the event channel. -/
def process_incoming (enc dec : session.CcmFn) (st : ConnState)
    (data : List Nat) : ConnState :=
  match st.session.decode_message dec data with
  | none => st
  | some decoded_data =>
    match messages.Message.decode decoded_data with
    | none => st
    | some message =>
      let st :=
        if message.protocol_header.exchange_flags &&&
            messages.ProtocolMessageHeader.FLAG_ACK ≠ 0 then
          { st with unacked :=
              st.unacked.filter (fun c => c ≠ message.protocol_header.ack_counter) }
        else st
      let res := st.received_counters.insert message.message_header.message_counter
      let st := { st with received_counters := res.2 }
      if !res.1 then
        (send_ack enc st message).2
      else
        let ackRes :=
          if message.protocol_header.exchange_flags &&&
              messages.ProtocolMessageHeader.FLAG_RELIABILITY ≠ 0 then
            send_ack enc st message
          else (true, st)
        if !ackRes.1 then ackRes.2
        else
          let st := ackRes.2
          if message.protocol_header.protocol_id =
              messages.ProtocolMessageHeader.PROTOCOL_ID_SECURE_CHANNEL ∧
              message.protocol_header.opcode =
                messages.ProtocolMessageHeader.OPCODE_ACK then
            st
          else
            let exchange_id := message.protocol_header.exchange_id
            if exchange_id ∈ st.pending_exchanges then
              { st with
                pending_exchanges :=
                  st.pending_exchanges.filter (fun e => e ≠ exchange_id),
                delivered := st.delivered ++ [.toCaller exchange_id message] }
            else
              { st with delivered := st.delivered ++ [.toEvent message] }

end active_connection

namespace commission

def CLUSTER_OPERATIONAL_CREDENTIALS : Nat := 0x3e
def CMD_OPERATIONAL_CREDENTIALS_ADDTRUSTEDROOTCERTIFICATE : Nat := 0xb
def CMD_OPERATIONAL_CREDENTIALS_ADDNOC : Nat := 0x6
def CMD_OPERATIONAL_CSRREQUEST : Nat := 0x4
def CLUSTER_GENERAL_COMMISSIONING : Nat := 0x30
def CMD_GENERAL_COMMISSIONING_COMMISSIONINGCOMPLETE : Nat := 4

/-- The CSRRequest datagram built in `send_csr` (`nonce` is the random
32-byte csr nonce). -/
def send_csr_request (nonce : List Nat) : List Nat :=
  messages.im_invoke_request 0 CLUSTER_OPERATIONAL_CREDENTIALS
    CMD_OPERATIONAL_CSRREQUEST 1 (tlv.write_octetstring 0 nonce) false

/-- The AddTrustedRootCertificate datagram built in `push_ca_cert`
(`mcert` is the CA certificate in Matter TLV form). -/
def push_ca_cert_request (mcert : List Nat) : List Nat :=
  messages.im_invoke_request 0 CLUSTER_OPERATIONAL_CREDENTIALS
    CMD_OPERATIONAL_CREDENTIALS_ADDTRUSTEDROOTCERTIFICATE 1
    (tlv.write_octetstring 0 mcert) false

/-- The AddNOC datagram built in `push_device_cert` (`noc` the signed NOC
in Matter TLV form, `ipk` the fabric's IPK epoch key, and the admin
vendor id fixed at 101). -/
def push_device_cert_request (noc ipk : List Nat) (controller_id : Nat) : List Nat :=
  messages.im_invoke_request 0 CLUSTER_OPERATIONAL_CREDENTIALS
    CMD_OPERATIONAL_CREDENTIALS_ADDNOC 1
    (tlv.write_octetstring 0 noc ++ tlv.write_octetstring 2 ipk ++
      tlv.write_uint64 3 controller_id ++ tlv.write_uint64 4 101) false

/-- The CommissioningComplete datagram built in `commissioning_complete`. -/
def commissioning_complete_request : List Nat :=
  messages.im_invoke_request 0 CLUSTER_GENERAL_COMMISSIONING
    CMD_GENERAL_COMMISSIONING_COMMISSIONINGCOMPLETE 30 [] false

/-- The exchange id carried in a request's protocol header (commissioning
requests are the bytes handed to `RetrContext::send`, which start with
the protocol header). -/
def exchange_id_of (msg : List Nat) : Option Nat :=
  (messages.ProtocolMessageHeader.decode msg).map (fun p => p.1.exchange_id)

end commission

namespace spake2p

section

variable {Scalar : Type} [CommRing Scalar] {Point : Type} [AddCommGroup Point]
  [Module Scalar Point]

/-- `struct Context` of `src/spake2p.rs`.  The `EncodedPoint` fields `x`,
`y` hold curve points; their SEC1 serialization is the abstract
`pointBytes` parameter below. -/
structure Context (Scalar Point : Type) where
  w0 : Scalar
  w1 : Scalar
  x_random : Scalar
  x : Point
  y : Point
  ca : Option (List Nat)
  decrypt_key : Option (List Nat)
  encrypt_key : Option (List Nat)

/-- `struct Engine`: the two fixed generator points `M` and `N`. -/
structure Engine (Point : Type) where
  m : Point
  n : Point

/-- `Engine::append_to_tt`: 8-byte little-endian length prefix, then the
data. -/
def append_to_tt (buf data : List Nat) : List Nat :=
  buf ++ bytes.u64le data.length ++ data

/-- ASCII bytes of the HKDF info `ConfirmationKeys`. -/
def CONFIRMATION_KEYS_INFO : List Nat :=
  [67, 111, 110, 102, 105, 114, 109, 97, 116, 105, 111, 110, 75, 101, 121, 115]

/-- ASCII bytes of the HKDF info `SessionKeys`. -/
def SESSION_KEYS_INFO : List Nat :=
  [83, 101, 115, 115, 105, 111, 110, 75, 101, 121, 115]

variable (sha256 : List Nat → List Nat)
  (hkdf_sha256 : List Nat → List Nat → List Nat → Nat → List Nat)
  (hmac_sha256 : List Nat → List Nat → List Nat)
  (pbkdf2_hmac : List Nat → List Nat → Nat → List Nat)
  (p256_scalar_from_40_bytes : List Nat → Scalar)
  (pointBytes : Point → List Nat)
  (scalarBytes : Scalar → List Nat)
  (Ggen : Point)

/-- `Engine::start`: PBKDF2 → `w0 ∥ w1` (40-byte halves reduced to
scalars), random scalar `x`, share `X = M·w0 + G·x`.  The random scalar
(`p256::Scalar::random`) is a parameter.  `y` starts as the identity
encoded point, overwritten by the caller with the responder share. -/
def Engine.start (engine : Engine Point) (key salt : List Nat) (iterations : Nat)
    (x_random_scalar : Scalar) : Context Scalar Point :=
  let kdf := pbkdf2_hmac key salt iterations
  let w0_scalar := p256_scalar_from_40_bytes (kdf.take 40)
  let w1_scalar := p256_scalar_from_40_bytes ((kdf.drop 40).take 40)
  let t_pp := x_random_scalar • Ggen
  let p := w0_scalar • engine.m
  let px2 := p + t_pp
  { w0 := w0_scalar, w1 := w1_scalar, x_random := x_random_scalar,
    x := px2, y := 0, ca := none, decrypt_key := none, encrypt_key := none }

/-- The SPAKE2+ transcript `TT` both sides build in `finish`:
length-prefixed context hash, two empty identities, `M`, `N`, `X`, `Y`,
`Z`, `V`, `w0`. -/
def buildTT (m n x y z v : Point) (w0 : Scalar) (seed : List Nat) : List Nat :=
  append_to_tt (append_to_tt (append_to_tt (append_to_tt (append_to_tt (append_to_tt
    (append_to_tt (append_to_tt (append_to_tt (append_to_tt [] (sha256 seed)) [])
      []) (pointBytes m)) (pointBytes n)) (pointBytes x)) (pointBytes y))
        (pointBytes z)) (pointBytes v)) (scalarBytes w0)

/-- `Engine::finish`: recover `Z = (Y − N·w0)·x`, `V = (Y − N·w0)·w1`,
hash the transcript into `Ka ∥ Ke`, derive the confirmation keys, verify
the responder confirmation `cB = HMAC(KcB, X)` (mismatch aborts), then
derive the session keys `encrypt ∥ decrypt` from `Ke`. -/
def Engine.finish (engine : Engine Point) (ctx : Context Scalar Point)
    (seed : List Nat) (cb_received : List Nat) : Except String (Context Scalar Point) :=
  let wn := ctx.w0 • engine.n
  let wn := -wn
  let zn := ctx.y + wn
  let z := ctx.x_random • zn
  let v := ctx.w1 • zn
  let tt := buildTT sha256 pointBytes scalarBytes engine.m engine.n ctx.x ctx.y z v
    ctx.w0 seed
  let result := sha256 tt
  let ka := result.take 16
  let ke := (result.drop 16).take 16
  let okm := hkdf_sha256 [] ka CONFIRMATION_KEYS_INFO 32
  let ca := hmac_sha256 (pointBytes ctx.y) (okm.take 16)
  let cb := hmac_sha256 (pointBytes ctx.x) (okm.drop 16)
  if cb ≠ cb_received then
    .error "cb value does not match expected value"
  else
    let xcrypt := hkdf_sha256 [] ke SESSION_KEYS_INFO 48
    .ok { ctx with
            ca := some ca,
            decrypt_key := some ((xcrypt.drop 16).take 16),
            encrypt_key := some (xcrypt.take 16) }

/-- `struct VerifierContext` of the `spake2p.rs` test module: the
responder side, following the same TT construction. -/
structure VerifierContext (Scalar Point : Type) where
  w0 : Scalar
  l : Point
  y_random : Scalar
  y : Point
  x : Point
  decrypt_key : Option (List Nat)
  encrypt_key : Option (List Nat)
  cb : Option (List Nat)

/-- `VerifierContext::start`: same KDF, `L = G·w1`, share
`Y = N·w0 + G·y`. -/
def VerifierContext.start (key salt : List Nat) (iterations : Nat)
    (engine : Engine Point) (y_random : Scalar) : VerifierContext Scalar Point :=
  let kdf := pbkdf2_hmac key salt iterations
  let w0 := p256_scalar_from_40_bytes (kdf.take 40)
  let w1 := p256_scalar_from_40_bytes ((kdf.drop 40).take 40)
  let l := w1 • Ggen
  let t_pp := y_random • Ggen
  let wn := w0 • engine.n
  let y_point := wn + t_pp
  { w0 := w0, l := l, y_random := y_random, y := y_point, x := 0,
    decrypt_key := none, encrypt_key := none, cb := none }

/-- `VerifierContext::finish`: `Z = (X − M·w0)·y`, `V = L·y`, same
transcript, and the responder's key order is `decrypt ∥ encrypt`. -/
def VerifierContext.finish (vc : VerifierContext Scalar Point) (seed : List Nat)
    (engine : Engine Point) : VerifierContext Scalar Point :=
  let wm := vc.w0 • engine.m
  let wm := -wm
  let zn := vc.x + wm
  let z := vc.y_random • zn
  let v := vc.y_random • vc.l
  let tt := buildTT sha256 pointBytes scalarBytes engine.m engine.n vc.x vc.y z v
    vc.w0 seed
  let result := sha256 tt
  let ka := result.take 16
  let ke := (result.drop 16).take 16
  let okm := hkdf_sha256 [] ka CONFIRMATION_KEYS_INFO 32
  let cb := hmac_sha256 (pointBytes vc.x) (okm.drop 16)
  let xcrypt := hkdf_sha256 [] ke SESSION_KEYS_INFO 48
  { vc with
      decrypt_key := some (xcrypt.take 16),
      encrypt_key := some ((xcrypt.drop 16).take 16),
      cb := some cb }

end

/-! A concrete instantiation of the abstract curve for evaluation: the
integers as a module over themselves (generator 1), with degenerate byte
functions.  Used only to exercise the agreement theorem on a computable
instance. -/

def idHash : List Nat → List Nat := fun l => l

def catHmac : List Nat → List Nat → List Nat := fun d k => d ++ k

def repHkdf : List Nat → List Nat → List Nat → Nat → List Nat :=
  fun _ _ _ n => List.replicate n 0

def zeroPbkdf : List Nat → List Nat → Nat → List Nat :=
  fun _ _ _ => List.replicate 80 1

def intScalarOf : List Nat → Int := fun l => (l.length : Int)

def intBytes : Int → List Nat := fun p => [p.natAbs]

def engineZ : Engine Int := { m := 2, n := 3 }

def proverZ : Context Int Int :=
  Engine.start zeroPbkdf intScalarOf 1 engineZ [] [] 1 5

def verifierZ : VerifierContext Int Int :=
  VerifierContext.start zeroPbkdf intScalarOf 1 [] [] 1 engineZ 7

def verifierZfin : VerifierContext Int Int :=
  VerifierContext.finish idHash repHkdf catHmac intBytes intBytes
    { verifierZ with x := proverZ.x } [] engineZ

end spake2p

namespace tlv

open bytes

/-! Evaluation lemmas: one step of the decoder loop on the output of each
buffer writer, with the rest of the input untouched. -/

theorem readBytes_append (l r : List Nat) : readBytes l.length (l ++ r) = some (l, r) := by
  simp [readBytes, List.take_left, List.drop_left]

theorem readBytes_append_of_eq (n : Nat) (l r : List Nat) (h : l.length = n) :
    readBytes n (l ++ r) = some (l, r) := by
  subst h; exact readBytes_append l r

theorem leVal_u16le (v : Nat) : leVal (u16le v) = v % 2 ^ 16 := by
  simp [leVal, u16le]; omega

theorem leVal_u32le (v : Nat) : leVal (u32le v) = v % 2 ^ 32 := by
  simp [leVal, u32le]; omega

theorem leVal_u64le (v : Nat) : leVal (u64le v) = v % 2 ^ 64 := by
  simp [leVal, u64le]; omega

theorem i8byte_lt (v : Int) : i8byte v < 256 := by
  unfold i8byte; omega

theorem decode_step_end (f : Nat) (r : List Nat) :
    decodeList (f + 1) (TYPE_END_CONTAINER :: r) = some ([], r) := by
  simp [decodeList, read_tag, TYPE_END_CONTAINER, TYPE_INT_1, TYPE_INT_2, TYPE_INT_4,
    TYPE_UINT_1, TYPE_UINT_2, TYPE_UINT_4, TYPE_UINT_8, TYPE_BOOL_FALSE, TYPE_BOOL_TRUE,
    TYPE_UTF8_L1, TYPE_OCTET_STRING_L1, TYPE_OCTET_STRING_L2, TYPE_STRUCT, TYPE_ARRAY,
    TYPE_LIST]

theorem decode_step_int8 (f tag : Nat) (v : Int) (r : List Nat) :
    decodeList (f + 1) (write_int8 tag v ++ r) =
      (decodeList f r).map (fun p => (embedValue tag (.Int8 v) :: p.1, p.2)) := by
  have h1 : tag % 256 % 256 = tag % 256 := Nat.mod_mod_of_dvd tag dvd_rfl
  have h2 : i8byte v % 256 = i8byte v := Nat.mod_eq_of_lt (i8byte_lt v)
  cases h : decodeList f r with
  | none =>
      simp [decodeList, write_int8, read_tag, readU8, CTRL_CTX_L1, TYPE_INT_1, h, h1, h2,
        embedValue]
  | some p =>
      simp [decodeList, write_int8, read_tag, readU8, CTRL_CTX_L1, TYPE_INT_1, h, h1, h2,
        embedValue]

theorem decode_step_uint8 (f tag v : Nat) (r : List Nat) :
    decodeList (f + 1) (write_uint8 tag v ++ r) =
      (decodeList f r).map (fun p => (embedValue tag (.UInt8 v) :: p.1, p.2)) := by
  have h1 : tag % 256 % 256 = tag % 256 := Nat.mod_mod_of_dvd tag dvd_rfl
  have h2 : v % 256 % 256 = v % 256 := Nat.mod_mod_of_dvd v dvd_rfl
  cases h : decodeList f r with
  | none =>
      simp [decodeList, write_uint8, read_tag, readU8, CTRL_CTX_L1, TYPE_UINT_1,
        TYPE_INT_1, TYPE_INT_2, TYPE_INT_4, h, h1, h2, embedValue]
  | some p =>
      simp [decodeList, write_uint8, read_tag, readU8, CTRL_CTX_L1, TYPE_UINT_1,
        TYPE_INT_1, TYPE_INT_2, TYPE_INT_4, h, h1, h2, embedValue]

theorem decode_step_uint16 (f tag v : Nat) (r : List Nat) :
    decodeList (f + 1) (write_uint16 tag v ++ r) =
      (decodeList f r).map (fun p => (embedValue tag (.UInt16 v) :: p.1, p.2)) := by
  have h1 : tag % 256 % 256 = tag % 256 := Nat.mod_mod_of_dvd tag dvd_rfl
  have h2 : readU16le (u16le v ++ r) = some (v % 2 ^ 16, r) := by
    have := readBytes_append_of_eq 2 (u16le v) r (by simp [u16le])
    simp [readU16le, this, leVal_u16le]
  cases h : decodeList f r with
  | none =>
      simp [decodeList, write_uint16, read_tag, readU8, u16le, CTRL_CTX_L1, TYPE_UINT_2,
        TYPE_INT_1, TYPE_INT_2, TYPE_INT_4, TYPE_UINT_1, h, h1, embedValue,
        show readU16le (v % 256 :: v / 256 % 256 :: r) = some (v % 2 ^ 16, r) by
          simpa [u16le] using h2]
  | some p =>
      simp [decodeList, write_uint16, read_tag, readU8, u16le, CTRL_CTX_L1, TYPE_UINT_2,
        TYPE_INT_1, TYPE_INT_2, TYPE_INT_4, TYPE_UINT_1, h, h1, embedValue,
        show readU16le (v % 256 :: v / 256 % 256 :: r) = some (v % 2 ^ 16, r) by
          simpa [u16le] using h2]

theorem decode_step_uint32 (f tag v : Nat) (r : List Nat) :
    decodeList (f + 1) (write_uint32 tag v ++ r) =
      (decodeList f r).map (fun p => (embedValue tag (.UInt32 v) :: p.1, p.2)) := by
  have h1 : tag % 256 % 256 = tag % 256 := Nat.mod_mod_of_dvd tag dvd_rfl
  have h2 : readU32le (u32le v ++ r) = some (v % 2 ^ 32, r) := by
    have := readBytes_append_of_eq 4 (u32le v) r (by simp [u32le])
    simp [readU32le, this, leVal_u32le]
  have h3 : readU32le (v % 256 :: v / 256 % 256 :: v / 65536 % 256 :: v / 16777216 % 256 :: r)
      = some (v % 2 ^ 32, r) := by simpa [u32le] using h2
  cases h : decodeList f r with
  | none =>
      simp [decodeList, write_uint32, read_tag, readU8, u32le, CTRL_CTX_L1, TYPE_UINT_4,
        TYPE_INT_1, TYPE_INT_2, TYPE_INT_4, TYPE_UINT_1, TYPE_UINT_2, h, h1, h3, embedValue]
  | some p =>
      simp [decodeList, write_uint32, read_tag, readU8, u32le, CTRL_CTX_L1, TYPE_UINT_4,
        TYPE_INT_1, TYPE_INT_2, TYPE_INT_4, TYPE_UINT_1, TYPE_UINT_2, h, h1, h3, embedValue]

theorem decode_step_uint64 (f tag v : Nat) (r : List Nat) :
    decodeList (f + 1) (write_uint64 tag v ++ r) =
      (decodeList f r).map (fun p => (embedValue tag (.UInt64 v) :: p.1, p.2)) := by
  have h1 : tag % 256 % 256 = tag % 256 := Nat.mod_mod_of_dvd tag dvd_rfl
  have h2 : readU64le (u64le v ++ r) = some (v % 2 ^ 64, r) := by
    have := readBytes_append_of_eq 8 (u64le v) r (by simp [u64le])
    simp [readU64le, this, leVal_u64le]
  have h3 : readU64le (v % 256 :: v / 256 % 256 :: v / 65536 % 256 :: v / 16777216 % 256 ::
        v / 4294967296 % 256 :: v / 1099511627776 % 256 :: v / 281474976710656 % 256 ::
        v / 72057594037927936 % 256 :: r)
      = some (v % 2 ^ 64, r) := by simpa [u64le] using h2
  cases h : decodeList f r with
  | none =>
      simp [decodeList, write_uint64, read_tag, readU8, u64le, CTRL_CTX_L1, TYPE_UINT_8,
        TYPE_INT_1, TYPE_INT_2, TYPE_INT_4, TYPE_UINT_1, TYPE_UINT_2, TYPE_UINT_4, h, h1, h3,
        embedValue]
  | some p =>
      simp [decodeList, write_uint64, read_tag, readU8, u64le, CTRL_CTX_L1, TYPE_UINT_8,
        TYPE_INT_1, TYPE_INT_2, TYPE_INT_4, TYPE_UINT_1, TYPE_UINT_2, TYPE_UINT_4, h, h1, h3,
        embedValue]

theorem decode_step_bool (f tag : Nat) (b : Bool) (r : List Nat) :
    decodeList (f + 1) (write_bool tag b ++ r) =
      (decodeList f r).map (fun p => (embedValue tag (.Bool b) :: p.1, p.2)) := by
  have h1 : tag % 256 % 256 = tag % 256 := Nat.mod_mod_of_dvd tag dvd_rfl
  cases b <;> cases h : decodeList f r <;>
    simp [decodeList, write_bool, read_tag, readU8, CTRL_CTX_L1, TYPE_BOOL_FALSE,
      TYPE_BOOL_TRUE, TYPE_INT_1, TYPE_INT_2, TYPE_INT_4, TYPE_UINT_1, TYPE_UINT_2,
      TYPE_UINT_4, TYPE_UINT_8, h, h1, embedValue]

theorem decode_step_string (f tag : Nat) (s : List Nat) (r : List Nat)
    (hu : validUtf8 s = true) (hl : s.length < 256) :
    decodeList (f + 1) (write_string tag s ++ r) =
      (decodeList f r).map (fun p => (embedValue tag (.String s) :: p.1, p.2)) := by
  have h1 : tag % 256 % 256 = tag % 256 := Nat.mod_mod_of_dvd tag dvd_rfl
  have h2 : s.length % 256 % 256 = s.length := by omega
  have h3 : readBytes s.length (s ++ r) = some (s, r) := readBytes_append s r
  cases h : decodeList f r with
  | none =>
      simp [decodeList, write_string, read_tag, readU8, CTRL_CTX_L1, TYPE_UTF8_L1,
        TYPE_INT_1, TYPE_INT_2, TYPE_INT_4, TYPE_UINT_1, TYPE_UINT_2, TYPE_UINT_4,
        TYPE_UINT_8, TYPE_BOOL_FALSE, TYPE_BOOL_TRUE, h, h1, h2, h3, hu, embedValue]
  | some p =>
      simp [decodeList, write_string, read_tag, readU8, CTRL_CTX_L1, TYPE_UTF8_L1,
        TYPE_INT_1, TYPE_INT_2, TYPE_INT_4, TYPE_UINT_1, TYPE_UINT_2, TYPE_UINT_4,
        TYPE_UINT_8, TYPE_BOOL_FALSE, TYPE_BOOL_TRUE, h, h1, h2, h3, hu, embedValue]

theorem decode_step_octetstring (f tag : Nat) (o : List Nat) (r : List Nat)
    (hl : o.length < 65536) :
    decodeList (f + 1) (write_octetstring tag o ++ r) =
      (decodeList f r).map (fun p => (embedValue tag (.OctetString o) :: p.1, p.2)) := by
  have h1 : tag % 256 % 256 = tag % 256 := Nat.mod_mod_of_dvd tag dvd_rfl
  have h3 : readBytes o.length (o ++ r) = some (o, r) := readBytes_append o r
  by_cases hsmall : o.length > 0xff
  · have h4 : readU16le (u16le o.length ++ (o ++ r)) = some (o.length, o ++ r) := by
      have := readBytes_append_of_eq 2 (u16le o.length) (o ++ r) (by simp [u16le])
      simp [readU16le, this, leVal_u16le, Nat.mod_eq_of_lt hl]
    have h5 : readU16le (o.length % 256 :: o.length / 256 % 256 :: (o ++ r))
        = some (o.length, o ++ r) := by simpa [u16le] using h4
    cases h : decodeList f r with
    | none =>
        simp [decodeList, write_octetstring, hsmall, read_tag, readU8, u16le, CTRL_CTX_L1,
          TYPE_OCTET_STRING_L2, TYPE_INT_1, TYPE_INT_2, TYPE_INT_4, TYPE_UINT_1,
          TYPE_UINT_2, TYPE_UINT_4, TYPE_UINT_8, TYPE_BOOL_FALSE, TYPE_BOOL_TRUE,
          TYPE_UTF8_L1, TYPE_OCTET_STRING_L1, h, h1, h3, embedValue,
          show readU16le (o.length % 256 :: o.length / 256 % 256 :: (o ++ r))
            = some (o.length, o ++ r) from h5]
    | some p =>
        simp [decodeList, write_octetstring, hsmall, read_tag, readU8, u16le, CTRL_CTX_L1,
          TYPE_OCTET_STRING_L2, TYPE_INT_1, TYPE_INT_2, TYPE_INT_4, TYPE_UINT_1,
          TYPE_UINT_2, TYPE_UINT_4, TYPE_UINT_8, TYPE_BOOL_FALSE, TYPE_BOOL_TRUE,
          TYPE_UTF8_L1, TYPE_OCTET_STRING_L1, h, h1, h3, embedValue,
          show readU16le (o.length % 256 :: o.length / 256 % 256 :: (o ++ r))
            = some (o.length, o ++ r) from h5]
  · have h2 : o.length % 256 % 256 = o.length := by omega
    cases h : decodeList f r with
    | none =>
        simp [decodeList, write_octetstring, hsmall, read_tag, readU8, CTRL_CTX_L1,
          TYPE_OCTET_STRING_L1, TYPE_INT_1, TYPE_INT_2, TYPE_INT_4, TYPE_UINT_1,
          TYPE_UINT_2, TYPE_UINT_4, TYPE_UINT_8, TYPE_BOOL_FALSE, TYPE_BOOL_TRUE,
          TYPE_UTF8_L1, h, h1, h2, h3, embedValue]
    | some p =>
        simp [decodeList, write_octetstring, hsmall, read_tag, readU8, CTRL_CTX_L1,
          TYPE_OCTET_STRING_L1, TYPE_INT_1, TYPE_INT_2, TYPE_INT_4, TYPE_UINT_1,
          TYPE_UINT_2, TYPE_UINT_4, TYPE_UINT_8, TYPE_BOOL_FALSE, TYPE_BOOL_TRUE,
          TYPE_UTF8_L1, h, h1, h2, h3, embedValue]

theorem encodeList_cons_eq_some (x : TlvItemEnc) (xs : List TlvItemEnc) (bs : List Nat) :
    TlvItemEnc.encodeList (x :: xs) = some bs ↔
      ∃ b1 b2, x.encode_internal = some b1 ∧ TlvItemEnc.encodeList xs = some b2 ∧
        bs = b1 ++ b2 := by
  cases h1 : x.encode_internal with
  | none => simp [TlvItemEnc.encodeList, h1]
  | some b1 =>
      cases h2 : TlvItemEnc.encodeList xs with
      | none => simp [TlvItemEnc.encodeList, h1, h2]
      | some b2 => simp [TlvItemEnc.encodeList, h1, h2, eq_comm]

theorem sizeItem_pos (x : TlvItemEnc) : 1 ≤ sizeItem x := by
  cases x with
  | mk tag v => cases v <;> simp [sizeItem, sizeValue]

theorem decode_step_struct_anon (f : Nat) (rest : List Nat) (c2 : List TlvItem)
    (r2 : List Nat) (h : decodeList f rest = some (c2, r2)) :
    decodeList (f + 1) (TYPE_STRUCT :: rest) =
      (decodeList f r2).map (fun p => (TlvItem.mk 0 (.List c2) :: p.1, p.2)) := by
  cases hrec : decodeList f r2 with
  | none =>
      simp [decodeList, read_tag, TYPE_STRUCT, TYPE_INT_1, TYPE_INT_2, TYPE_INT_4,
        TYPE_UINT_1, TYPE_UINT_2, TYPE_UINT_4, TYPE_UINT_8, TYPE_BOOL_FALSE,
        TYPE_BOOL_TRUE, TYPE_UTF8_L1, TYPE_OCTET_STRING_L1, TYPE_OCTET_STRING_L2,
        h, hrec]
  | some p =>
      simp [decodeList, read_tag, TYPE_STRUCT, TYPE_INT_1, TYPE_INT_2, TYPE_INT_4,
        TYPE_UINT_1, TYPE_UINT_2, TYPE_UINT_4, TYPE_UINT_8, TYPE_BOOL_FALSE,
        TYPE_BOOL_TRUE, TYPE_UTF8_L1, TYPE_OCTET_STRING_L1, TYPE_OCTET_STRING_L2,
        h, hrec]

end tlv

namespace tlv

open bytes

/-- Main round-trip lemma: the decoder loop inverts the encoder on every
well-formed item list, both when the encoding is followed by an
end-of-container byte (the nested-container position) and when it stands
alone (the top-level position).  `n` bounds the total node count for the
induction. -/
theorem decodeList_encodeList (n : Nat) :
    ∀ (l : List TlvItemEnc), sizeList l ≤ n → wfList l = true → ∀ (bs : List Nat),
      TlvItemEnc.encodeList l = some bs → ∀ (fuel : Nat), sizeList l + 1 ≤ fuel →
      ∀ (tail : List Nat),
        decodeList fuel (bs ++ TYPE_END_CONTAINER :: tail) = some (embedList l, tail) ∧
        decodeList fuel bs = some (embedList l, []) := by
  induction n with
  | zero =>
    intro l hn hwf bs henc fuel hf tail
    cases l with
    | nil =>
      obtain ⟨f, rfl⟩ : ∃ f, fuel = f + 1 := ⟨fuel - 1, by omega⟩
      have hbs : bs = [] := by
        have h0 := henc
        simp [TlvItemEnc.encodeList] at h0
        exact h0
      subst hbs
      refine ⟨?_, ?_⟩
      · simpa [embedList] using decode_step_end f tail
      · simp [decodeList, embedList]
    | cons x xs =>
      exfalso
      have := sizeItem_pos x
      simp [sizeList] at hn
      omega
  | succ n ihn =>
    intro l hn hwf bs henc fuel hf tail
    cases l with
    | nil =>
      obtain ⟨f, rfl⟩ : ∃ f, fuel = f + 1 := ⟨fuel - 1, by omega⟩
      have hbs : bs = [] := by
        have h0 := henc
        simp [TlvItemEnc.encodeList] at h0
        exact h0
      subst hbs
      refine ⟨?_, ?_⟩
      · simpa [embedList] using decode_step_end f tail
      · simp [decodeList, embedList]
    | cons x xs =>
      obtain ⟨f, rfl⟩ : ∃ f, fuel = f + 1 := ⟨fuel - 1, by omega⟩
      rw [encodeList_cons_eq_some] at henc
      obtain ⟨b1, b2, h1, h2, rfl⟩ := henc
      cases x with
      | mk tag v =>
        have hwf2 : wfItem (.mk tag v) = true ∧ wfList xs = true := by
          simpa [wfList, Bool.and_eq_true] using hwf
        have hwfv : wfValue v = true := by simpa [wfItem] using hwf2.1
        have hpos : 1 ≤ sizeItem (TlvItemEnc.mk tag v) := sizeItem_pos _
        have hnx : sizeList xs ≤ n := by
          simp [sizeList] at hn
          omega
        have hfx : sizeList xs + 1 ≤ f := by
          simp [sizeList] at hf
          omega
        have ih := ihn xs hnx hwf2.2 b2 h2 f hfx
        cases v with

        | Int8 w =>
          have hb1 : b1 = write_int8 tag w := by
            simp [TlvItemEnc.encode_internal, TlvItemValueEnc.encode_internal] at h1
            exact h1.symm
          subst hb1
          refine ⟨?_, ?_⟩
          · rw [List.append_assoc, decode_step_int8, (ih tail).1]
            simp [embedList, embedItem]
          · rw [decode_step_int8, (ih []).2]
            simp [embedList, embedItem]
        | Int16 w => simp [wfValue] at hwfv
        | UInt8 w =>
          have hb1 : b1 = write_uint8 tag w := by
            simp [TlvItemEnc.encode_internal, TlvItemValueEnc.encode_internal] at h1
            exact h1.symm
          subst hb1
          refine ⟨?_, ?_⟩
          · rw [List.append_assoc, decode_step_uint8, (ih tail).1]
            simp [embedList, embedItem]
          · rw [decode_step_uint8, (ih []).2]
            simp [embedList, embedItem]
        | UInt16 w =>
          have hb1 : b1 = write_uint16 tag w := by
            simp [TlvItemEnc.encode_internal, TlvItemValueEnc.encode_internal] at h1
            exact h1.symm
          subst hb1
          refine ⟨?_, ?_⟩
          · rw [List.append_assoc, decode_step_uint16, (ih tail).1]
            simp [embedList, embedItem]
          · rw [decode_step_uint16, (ih []).2]
            simp [embedList, embedItem]
        | UInt32 w =>
          have hb1 : b1 = write_uint32 tag w := by
            simp [TlvItemEnc.encode_internal, TlvItemValueEnc.encode_internal] at h1
            exact h1.symm
          subst hb1
          refine ⟨?_, ?_⟩
          · rw [List.append_assoc, decode_step_uint32, (ih tail).1]
            simp [embedList, embedItem]
          · rw [decode_step_uint32, (ih []).2]
            simp [embedList, embedItem]
        | UInt64 w =>
          have hb1 : b1 = write_uint64 tag w := by
            simp [TlvItemEnc.encode_internal, TlvItemValueEnc.encode_internal] at h1
            exact h1.symm
          subst hb1
          refine ⟨?_, ?_⟩
          · rw [List.append_assoc, decode_step_uint64, (ih tail).1]
            simp [embedList, embedItem]
          · rw [decode_step_uint64, (ih []).2]
            simp [embedList, embedItem]
        | Bool b =>
          have hb1 : b1 = write_bool tag b := by
            simp [TlvItemEnc.encode_internal, TlvItemValueEnc.encode_internal] at h1
            exact h1.symm
          subst hb1
          refine ⟨?_, ?_⟩
          · rw [List.append_assoc, decode_step_bool, (ih tail).1]
            simp [embedList, embedItem]
          · rw [decode_step_bool, (ih []).2]
            simp [embedList, embedItem]
        | String s =>
          have hb1 : b1 = write_string tag s := by
            simp [TlvItemEnc.encode_internal, TlvItemValueEnc.encode_internal] at h1
            exact h1.symm
          subst hb1
          have hvu : validUtf8 s = true ∧ s.length < 256 := by
            simpa [wfValue, Bool.and_eq_true] using hwfv
          refine ⟨?_, ?_⟩
          · rw [List.append_assoc, decode_step_string f tag s _ hvu.1 hvu.2,
              (ih tail).1]
            simp [embedList, embedItem]
          · rw [decode_step_string f tag s _ hvu.1 hvu.2, (ih []).2]
            simp [embedList, embedItem]
        | OctetString o =>
          have hb1 : b1 = write_octetstring tag o := by
            simp [TlvItemEnc.encode_internal, TlvItemValueEnc.encode_internal] at h1
            exact h1.symm
          subst hb1
          have hlo : o.length < 65536 := by simpa [wfValue] using hwfv
          refine ⟨?_, ?_⟩
          · rw [List.append_assoc, decode_step_octetstring f tag o _ hlo,
              (ih tail).1]
            simp [embedList, embedItem]
          · rw [decode_step_octetstring f tag o _ hlo, (ih []).2]
            simp [embedList, embedItem]
        | StructAnon children =>
          have hwfc : wfList children = true := by simpa [wfValue] using hwfv
          obtain ⟨bi, hbi, hb1⟩ :
              ∃ bi, TlvItemEnc.encodeList children = some bi ∧
                b1 = write_anon_struct ++ bi ++ write_struct_end := by
            cases hbi : TlvItemEnc.encodeList children with
            | none =>
                simp [TlvItemEnc.encode_internal, TlvItemValueEnc.encode_internal, hbi] at h1
            | some bi =>
                refine ⟨bi, rfl, ?_⟩
                simp [TlvItemEnc.encode_internal, TlvItemValueEnc.encode_internal, hbi] at h1
                exact h1.symm
          subst hb1
          have hfc : sizeList children + 1 ≤ f := by
            simp [sizeList, sizeItem, sizeValue] at hf
            omega
          have hnc : sizeList children ≤ n := by
            simp [sizeList, sizeItem, sizeValue] at hn
            omega
          have ihc := ihn children hnc hwfc bi hbi f hfc
          refine ⟨?_, ?_⟩
          · have hshape :
                (write_anon_struct ++ bi ++ write_struct_end ++ b2) ++
                  TYPE_END_CONTAINER :: tail =
                TYPE_STRUCT :: (bi ++ TYPE_END_CONTAINER :: (b2 ++ TYPE_END_CONTAINER :: tail)) := by
              simp [write_anon_struct, write_struct_end]
            rw [hshape,
              decode_step_struct_anon f _ _ _ (ihc (b2 ++ TYPE_END_CONTAINER :: tail)).1,
              (ih tail).1]
            simp [embedList, embedItem, embedValue]
          · have hshape :
                write_anon_struct ++ bi ++ write_struct_end ++ b2 =
                TYPE_STRUCT :: (bi ++ TYPE_END_CONTAINER :: b2) := by
              simp [write_anon_struct, write_struct_end]
            rw [hshape,
              decode_step_struct_anon f _ _ _ (ihc b2).1,
              (ih []).2]
            simp [embedList, embedItem, embedValue]
        | StructInvisible children => simp [wfValue] at hwfv
        | Invalid => simp [wfValue] at hwfv
/-- A well-formed encoding has at least as many bytes as tree nodes, so
the fuel `decode_tlv` passes is always sufficient. -/
theorem sizeList_le_length (n : Nat) :
    ∀ (l : List TlvItemEnc), sizeList l ≤ n → wfList l = true → ∀ (bs : List Nat),
      TlvItemEnc.encodeList l = some bs → sizeList l ≤ bs.length := by
  induction n with
  | zero =>
    intro l hn hwf bs henc
    omega
  | succ n ihn =>
    intro l hn hwf bs henc
    cases l with
    | nil => simp [sizeList]
    | cons x xs =>
      rw [encodeList_cons_eq_some] at henc
      obtain ⟨b1, b2, h1, h2, rfl⟩ := henc
      cases x with
      | mk tag v =>
        have hwf2 : wfItem (.mk tag v) = true ∧ wfList xs = true := by
          simpa [wfList, Bool.and_eq_true] using hwf
        have hwfv : wfValue v = true := by simpa [wfItem] using hwf2.1
        have hpos : 1 ≤ sizeItem (TlvItemEnc.mk tag v) := sizeItem_pos _
        have hnx : sizeList xs ≤ n := by
          simp [sizeList] at hn
          omega
        have ihx := ihn xs hnx hwf2.2 b2 h2
        cases v with
        | Int16 w => simp [wfValue] at hwfv
        | StructInvisible children => simp [wfValue] at hwfv
        | Invalid => simp [wfValue] at hwfv
        | StructAnon children =>
          have hwfc : wfList children = true := by simpa [wfValue] using hwfv
          obtain ⟨bi, hbi, hb1⟩ :
              ∃ bi, TlvItemEnc.encodeList children = some bi ∧
                b1 = write_anon_struct ++ bi ++ write_struct_end := by
            cases hbi : TlvItemEnc.encodeList children with
            | none =>
                simp [TlvItemEnc.encode_internal, TlvItemValueEnc.encode_internal, hbi] at h1
            | some bi =>
                refine ⟨bi, rfl, ?_⟩
                simp [TlvItemEnc.encode_internal, TlvItemValueEnc.encode_internal, hbi] at h1
                exact h1.symm
          subst hb1
          have hnc : sizeList children ≤ n := by
            simp [sizeList, sizeItem, sizeValue] at hn
            omega
          have ihc := ihn children hnc hwfc bi hbi
          simp [sizeList, sizeItem, sizeValue, write_anon_struct, write_struct_end]
            at ihx ihc hn hpos ⊢
          omega
        | Int8 w =>
          have hb1 : b1 = write_int8 tag w := by
            simp [TlvItemEnc.encode_internal, TlvItemValueEnc.encode_internal] at h1
            exact h1.symm
          subst hb1
          simp [sizeList, sizeItem, sizeValue, write_int8, u16le, u32le, u64le] at ihx hn hpos ⊢
          omega
        | UInt8 w =>
          have hb1 : b1 = write_uint8 tag w := by
            simp [TlvItemEnc.encode_internal, TlvItemValueEnc.encode_internal] at h1
            exact h1.symm
          subst hb1
          simp [sizeList, sizeItem, sizeValue, write_uint8, u16le, u32le, u64le] at ihx hn hpos ⊢
          omega
        | UInt16 w =>
          have hb1 : b1 = write_uint16 tag w := by
            simp [TlvItemEnc.encode_internal, TlvItemValueEnc.encode_internal] at h1
            exact h1.symm
          subst hb1
          simp [sizeList, sizeItem, sizeValue, write_uint16, u16le, u32le, u64le] at ihx hn hpos ⊢
          omega
        | UInt32 w =>
          have hb1 : b1 = write_uint32 tag w := by
            simp [TlvItemEnc.encode_internal, TlvItemValueEnc.encode_internal] at h1
            exact h1.symm
          subst hb1
          simp [sizeList, sizeItem, sizeValue, write_uint32, u16le, u32le, u64le] at ihx hn hpos ⊢
          omega
        | UInt64 w =>
          have hb1 : b1 = write_uint64 tag w := by
            simp [TlvItemEnc.encode_internal, TlvItemValueEnc.encode_internal] at h1
            exact h1.symm
          subst hb1
          simp [sizeList, sizeItem, sizeValue, write_uint64, u16le, u32le, u64le] at ihx hn hpos ⊢
          omega
        | Bool b =>
          have hb1 : b1 = write_bool tag b := by
            simp [TlvItemEnc.encode_internal, TlvItemValueEnc.encode_internal] at h1
            exact h1.symm
          subst hb1
          simp [sizeList, sizeItem, sizeValue, write_bool, u16le, u32le, u64le] at ihx hn hpos ⊢
          omega
        | String s =>
          have hb1 : b1 = write_string tag s := by
            simp [TlvItemEnc.encode_internal, TlvItemValueEnc.encode_internal] at h1
            exact h1.symm
          subst hb1
          simp [sizeList, sizeItem, sizeValue, write_string, u16le, u32le, u64le] at ihx hn hpos ⊢
          omega
        | OctetString o =>
          have hb1 : b1 = write_octetstring tag o := by
            simp [TlvItemEnc.encode_internal, TlvItemValueEnc.encode_internal] at h1
            exact h1.symm
          subst hb1
          by_cases hlen : o.length > 255
          · simp [sizeList, sizeItem, sizeValue, write_octetstring, hlen, u16le]
              at ihx hn hpos ⊢
            omega
          · simp [sizeList, sizeItem, sizeValue, write_octetstring, hlen]
              at ihx hn hpos ⊢
            omega

/-- Round-trip of `decode_tlv` over `TlvItemEnc::encode` for a single
well-formed item. -/
theorem decode_tlv_encode (e : TlvItemEnc) (hwf : wfItem e = true) (bs : List Nat)
    (henc : e.encode = some bs) : decode_tlv bs = some (embedItem e) := by
  have hlist : TlvItemEnc.encodeList [e] = some bs := by
    have h1 : e.encode_internal = some bs := henc
    simp [TlvItemEnc.encodeList, h1]
  have hwfl : wfList [e] = true := by simp [wfList, hwf]
  have hsz := sizeList_le_length (sizeList [e]) [e] le_rfl hwfl bs hlist
  have h := (decodeList_encodeList (sizeList [e]) [e] le_rfl hwfl bs hlist
    (bs.length + 1) (by omega) []).2
  unfold decode_tlv
  rw [h]
  simp [embedList]

end tlv

namespace onboarding

/-- Digit-fold bound: an all-digit character list parses below
`10 ^ length`. -/
theorem foldl_digits_lt (s : List Char) (hd : s.all Char.isDigit = true) :
    ∀ acc : Nat, s.foldl (fun acc c => acc * 10 + (c.toNat - 48)) acc <
      (acc + 1) * 10 ^ s.length := by
  induction s with
  | nil => intro acc; simp
  | cons c cs ih =>
    intro acc
    simp only [List.all_cons, Bool.and_eq_true] at hd
    have hc : c.toNat - 48 ≤ 9 := by
      have hdig := hd.1
      simp [Char.isDigit] at hdig
      exact Nat.sub_le_of_le_add hdig.2
    have h2 := ih hd.2 (acc * 10 + (c.toNat - 48))
    simp only [List.foldl_cons, List.length_cons]
    calc List.foldl (fun acc c => acc * 10 + (c.toNat - 48)) (acc * 10 + (c.toNat - 48)) cs
        < (acc * 10 + (c.toNat - 48) + 1) * 10 ^ cs.length := h2
      _ ≤ (acc + 1) * 10 ^ (cs.length + 1) := by
          have hstep : acc * 10 + (c.toNat - 48) + 1 ≤ (acc + 1) * 10 := by omega
          calc (acc * 10 + (c.toNat - 48) + 1) * 10 ^ cs.length
              ≤ (acc + 1) * 10 * 10 ^ cs.length := Nat.mul_le_mul_right _ hstep
            _ = (acc + 1) * 10 ^ (cs.length + 1) := by ring

/-- `parse_u32` succeeds on a nonempty all-digit group of at most nine
digits and returns the decimal value. -/
theorem parse_u32_digits (s : List Char) (hne : s ≠ [])
    (hd : s.all Char.isDigit = true) (hlen : s.length ≤ 9) :
    parse_u32 s = some (s.foldl (fun acc c => acc * 10 + (c.toNat - 48)) 0) := by
  have hlt := foldl_digits_lt s hd 0
  have hbound : s.foldl (fun acc c => acc * 10 + (c.toNat - 48)) 0 < 4294967296 := by
    have h10 : (10 : Nat) ^ s.length ≤ 10 ^ 9 :=
      Nat.pow_le_pow_right (by omega) hlen
    have h9 : (1 : Nat) * 10 ^ 9 < 4294967296 := by norm_num
    omega
  simp [parse_u32, hne, hd, hbound]

end onboarding

/-- C9: `decode_manual_pairing_code` strips the dashes, splits the eleven
digits into one digit `a`, five digits `b`, four digits `c` (the eleventh
digit is unread), parses the three integers and returns
`passcode = (b &&& 0x3FFF) ||| (c <<< 14)` and
`discriminator = ((a &&& 3) <<< 10) ||| ((b >>> 6) &&& 0x300)`; in
particular `2585-103-3238` yields discriminator 2816 and passcode
54453390. -/
theorem C9_manual_pairing_code :
    (∀ (code : List Char) (a b c : Nat),
      (code.filter (fun ch => ch ≠ '-')).length = 11 →
      (code.filter (fun ch => ch ≠ '-')).all Char.isDigit = true →
      onboarding.parse_u32 ((code.filter (fun ch => ch ≠ '-')).take 1) = some a →
      onboarding.parse_u32 (((code.filter (fun ch => ch ≠ '-')).drop 1).take 5) = some b →
      onboarding.parse_u32 (((code.filter (fun ch => ch ≠ '-')).drop 6).take 4) = some c →
      onboarding.decode_manual_pairing_code code =
        some { discriminator := ((a &&& 3) <<< 10) ||| ((b >>> 6) &&& 0x300),
               passcode := (b &&& 0x3fff) ||| (c <<< 14) }) ∧
    onboarding.decode_manual_pairing_code
        ['2', '5', '8', '5', '-', '1', '0', '3', '-', '3', '2', '3', '8'] =
      some { discriminator := 2816, passcode := 54453390 } := by
  constructor
  · intro code a b c hlen hdig ha hb hc
    have hsub : ∀ s : List Char, s.Sublist (code.filter (fun ch => ch ≠ '-')) →
        s.all Char.isDigit = true := by
      intro s hs
      rw [List.all_eq_true] at hdig ⊢
      intro x hx
      exact hdig x (hs.subset hx)
    have hlen4 : (((code.filter (fun ch => ch ≠ '-')).drop 6).take 4).length = 4 := by
      rw [List.length_take, List.length_drop, hlen]
      norm_num
    -- bound c < 10 ^ 4 from its four digits
    have hc4 : c < 10 ^ 4 := by
      have hval := onboarding.parse_u32_digits
        (((code.filter (fun ch => ch ≠ '-')).drop 6).take 4)
        (by
          apply List.ne_nil_of_length_pos
          rw [hlen4]
          norm_num)
        (hsub _ ((List.take_sublist _ _).trans (List.drop_sublist _ _)))
        (by rw [hlen4]; norm_num)
      rw [hval] at hc
      have hlt := onboarding.foldl_digits_lt
        (((code.filter (fun ch => ch ≠ '-')).drop 6).take 4)
        (hsub _ ((List.take_sublist _ _).trans (List.drop_sublist _ _))) 0
      rw [hlen4] at hlt
      have hceq := Option.some.inj hc
      omega
    have hnotshort : ¬ (code.filter (fun ch => ch ≠ '-')).length < 10 := by omega
    have hc14 : c <<< 14 % 4294967296 = c <<< 14 := by
      rw [Nat.shiftLeft_eq]
      have h4 : c < 10 ^ 4 := hc4
      omega
    have hdisc2 : (a &&& 3) <<< 10 ||| (b >>> 6) &&& 768 < 65536 := by
      have hx : (a &&& 3) <<< 10 < 2 ^ 16 := by
        rw [Nat.shiftLeft_eq]
        have h3 : a &&& 3 ≤ 3 := Nat.and_le_right
        omega
      have hy : (b >>> 6) &&& 768 < 2 ^ 16 := by
        have h3 : (b >>> 6) &&& 768 ≤ 768 := Nat.and_le_right
        omega
      have hor := Nat.or_lt_two_pow hx hy
      omega
    simp only [onboarding.decode_manual_pairing_code, hnotshort, if_false]
    rw [ha, hb, hc]
    simp [Option.bind, hc14]
    omega
  · rfl

/-- Witness: the spec's second concrete scenario, `34970112332`, through
the C9 theorem. -/
theorem C9_manual_pairing_code_witness :
    onboarding.decode_manual_pairing_code
        ['3', '4', '9', '7', '0', '1', '1', '2', '3', '3', '2'] =
      some { discriminator := 3840, passcode := 20202021 } := by
  have h := C9_manual_pairing_code.1
    ['3', '4', '9', '7', '0', '1', '1', '2', '3', '3', '2'] 3 49701 1233
    (by decide) (by decide) (by decide) (by decide) (by decide)
  rw [h]
  decide

/-- C10: `Fabric::new` always installs the fixed IPK epoch key
`00 01 02 03 04 05 06 07 08 09 0a 0b 0c 0d 0e 0f` (the epoch is not a
constructor input), so two fabrics built from the same fabric id and CA
public key — even with different `ca_id`s — have byte-identical
`signed_ipk` values. -/
theorem C10_fabric_fixed_ipk_epoch :
    ∀ (hkdf : fabric.HkdfFn) (fabric_id ca_id1 ca_id2 : Nat) (pub : List Nat),
      (fabric.Fabric.new fabric_id ca_id1 pub).ipk_epoch_key =
        [0, 1, 2, 3, 4, 5, 6, 7, 8, 9, 0xa, 0xb, 0xc, 0xd, 0xe, 0xf] ∧
      (fabric.Fabric.new fabric_id ca_id1 pub).signed_ipk hkdf =
        (fabric.Fabric.new fabric_id ca_id2 pub).signed_ipk hkdf := by
  intro hkdf fid c1 c2 pub
  exact ⟨rfl, rfl⟩

namespace bytes

theorem readU16le_cons (a b : Nat) (r : List Nat) :
    readU16le (a :: b :: r) = some (a % 256 + 256 * (b % 256), r) := by
  have h2 : 2 ≤ (a :: b :: r).length := by simp
  simp [readU16le, readBytes, h2, leVal, List.take, List.drop]

theorem readU32le_cons (a b cc d : Nat) (r : List Nat) :
    readU32le (a :: b :: cc :: d :: r) =
      some (a % 256 + 256 * (b % 256 + 256 * (cc % 256 + 256 * (d % 256))), r) := by
  have h4 : 4 ≤ (a :: b :: cc :: d :: r).length := by simp
  simp [readU32le, readBytes, h4, leVal, List.take, List.drop]

end bytes

/-- The protocol header of every `im_invoke_request` datagram decodes
back with the exchange id that was passed in (reduced to 16 bits). -/
theorem exchange_id_of_im_invoke (endpoint cluster command exchange_id : Nat)
    (payload : List Nat) (timed : Bool) :
    commission.exchange_id_of
      (messages.im_invoke_request endpoint cluster command exchange_id payload timed) =
      some (exchange_id % 2 ^ 16) := by
  have hval : exchange_id % 256 + 256 * (exchange_id / 256 % 256) =
      exchange_id % 65536 := by omega
  simp [commission.exchange_id_of, messages.im_invoke_request,
    messages.ProtocolMessageHeader.encode, messages.ProtocolMessageHeader.decode,
    messages.ProtocolMessageHeader.FLAG_ACK,
    messages.ProtocolMessageHeader.INTERACTION_OPCODE_INVOKE_REQ,
    messages.ProtocolMessageHeader.PROTOCOL_ID_INTERACTION,
    bytes.readU8, bytes.readU16le_cons, bytes.u16le, hval,
    show (5 : Nat) &&& 2 = 0 by decide]

/-- C8 (amended): the CSRRequest, AddTrustedRootCertificate and AddNOC
requests of the commissioning flow carry exchange id 1 in their protocol
headers, but the CommissioningComplete request carries exchange id 30. -/
theorem C8_commission_exchange_ids :
    ∀ (nonce mcert noc ipk : List Nat) (controller_id : Nat),
      commission.exchange_id_of (commission.send_csr_request nonce) = some 1 ∧
      commission.exchange_id_of (commission.push_ca_cert_request mcert) = some 1 ∧
      commission.exchange_id_of
        (commission.push_device_cert_request noc ipk controller_id) = some 1 ∧
      commission.exchange_id_of commission.commissioning_complete_request = some 30 := by
  intro nonce mcert noc ipk controller_id
  refine ⟨?_, ?_, ?_, ?_⟩ <;>
    simp [commission.send_csr_request, commission.push_ca_cert_request,
      commission.push_device_cert_request, commission.commissioning_complete_request,
      exchange_id_of_im_invoke]

/-- C8 witness: the amended theorem applied at empty certificate bytes. -/
theorem C8_commission_exchange_ids_witness :
    commission.exchange_id_of (commission.send_csr_request []) = some 1 := by
  exact (C8_commission_exchange_ids [] [] [] [] 0).1

/-- C8 counterexample: the CommissioningComplete request does not carry
exchange id 1 — its protocol header holds exchange id 30. -/
theorem C8_commission_exchange_ids_counterexample :
    commission.exchange_id_of commission.commissioning_complete_request = some 30 ∧
      (30 : Nat) ≠ 1 := ⟨rfl, by decide⟩

/-- C1 (amended): for every encoder item the decoder inverts — signed
1-byte ints (which come back as `Int` of their two's-complement byte),
unsigned ints of every width, bool, UTF-8 string (at most 255 bytes),
octet string (at most 65535 bytes), and anonymous-struct containers at
every nesting depth — `decode_tlv` applied to the bytes of
`TlvItemEnc::encode` yields exactly the corresponding tree.  The `Int16`
leaf is excluded: the decoder has no arm for its type byte (see the
counterexample), as are the encoder-only `StructInvisible` and `Invalid`
variants. -/
theorem C1_tlv_roundtrip (e : tlv.TlvItemEnc) (hwf : tlv.wfItem e = true)
    (bs : List Nat) (henc : e.encode = some bs) :
    tlv.decode_tlv bs = some (tlv.embedItem e) :=
  tlv.decode_tlv_encode e hwf bs henc

/-- C1 witness: the spec's concrete vector
`Struct{UInt8(tag 0, 6), UInt8(tag 1, 7)} → 15 24 00 06 24 01 07 18`,
decoded back through the round-trip theorem. -/
theorem C1_tlv_roundtrip_witness :
    tlv.TlvItemEnc.encode (.mk 0 (.StructAnon [.mk 0 (.UInt8 6), .mk 1 (.UInt8 7)])) =
      some [0x15, 0x24, 0x00, 0x06, 0x24, 0x01, 0x07, 0x18] ∧
    tlv.decode_tlv [0x15, 0x24, 0x00, 0x06, 0x24, 0x01, 0x07, 0x18] =
      some (tlv.embedItem (.mk 0 (.StructAnon [.mk 0 (.UInt8 6), .mk 1 (.UInt8 7)]))) :=
  ⟨by rfl, C1_tlv_roundtrip _ (by rfl) _ (by rfl)⟩

/-- C1 counterexample: the claim includes the signed 2-byte leaf, but
decoding the encoding of `Int16(tag 1, 5)` fails (`unknown tlv type 0x1`):
the decoder has no `TYPE_INT_2` arm, so the round trip does not return
the item. -/
theorem C1_tlv_roundtrip_counterexample :
    tlv.TlvItemEnc.encode (.mk 1 (.Int16 5)) = some [0x21, 1, 5, 0] ∧
    tlv.decode_tlv [0x21, 1, 5, 0] = none :=
  ⟨by rfl, by rfl⟩

/-- C3: `Session::encode_message` emits the encoded message header
followed by the payload unchanged when no encrypt key is installed; with
an encrypt key it emits the header followed by the AES-128-CCM
ciphertext-with-tag of the payload, with aad the header bytes and nonce
`0x00 ‖ counter_LE(4) ‖ local node id` (eight zero bytes when the local
node id is absent).  The hypothesis pins the local node id at its
8-byte wire size, as `Session::new` creates it. -/
theorem C3_session_encode_message (enc : session.CcmFn) (s : session.Session)
    (data : List Nat)
    (h8 : s.local_node = none ∨ ∃ v, s.local_node = some v ∧ v.length = 8) :
    (s.encrypt_key = none →
      (s.encode_message enc data).1 =
        some (messages.MessageHeader.encode
          { flags := 0, security_flags := 0, session_id := s.session_id,
            message_counter := s.counter, source_node_id := s.local_node,
            destination_node_id := s.remote_node } ++ data)) ∧
    (∀ k, s.encrypt_key = some k →
      (s.encode_message enc data).1 =
        (enc k
          ([0] ++ bytes.u32le s.counter ++
            (match s.local_node with
             | some v => v
             | none => [0, 0, 0, 0, 0, 0, 0, 0]))
          (messages.MessageHeader.encode
            { flags := 0, security_flags := 0, session_id := s.session_id,
              message_counter := s.counter, source_node_id := s.local_node,
              destination_node_id := s.remote_node })
          data).map
          (fun ct =>
            messages.MessageHeader.encode
              { flags := 0, security_flags := 0, session_id := s.session_id,
                message_counter := s.counter, source_node_id := s.local_node,
                destination_node_id := s.remote_node } ++ ct)) := by
  constructor
  · intro hk
    simp [session.Session.encode_message, hk]
  · intro k hk
    simp [session.Session.encode_message, session.make_nonce3_node, hk]

/-- C3 witness: a fresh session (zero random) with no key prepends the
plain header to the payload. -/
theorem C3_session_encode_message_witness :
    ((session.Session.new 7).encode_message (fun _ _ _ _ => none) [1, 2, 3]).1 =
      some (messages.MessageHeader.encode
        { flags := 0, security_flags := 0, session_id := 0, message_counter := 7,
          source_node_id := some [0, 0, 0, 0, 0, 0, 0, 0], destination_node_id := none }
        ++ [1, 2, 3]) := by
  have h := (C3_session_encode_message (fun _ _ _ _ => none) (session.Session.new 7)
    [1, 2, 3] (.inr ⟨[0, 0, 0, 0, 0, 0, 0, 0], by rfl, by rfl⟩)).1 (by rfl)
  exact h

/-- C4 (amended): `Session::decode_message` returns the datagram bytes
unchanged whenever no decrypt key is set — even when the header's session
id differs from `my_session_id`; the session-id check runs only once a
decrypt key is installed, and then a mismatch is an error. -/
theorem C4_session_decode_message (dec : session.CcmFn) (s : session.Session)
    (data : List Nat) :
    (s.decrypt_key = none → s.decode_message dec data = some data) ∧
    (∀ k h rest, s.decrypt_key = some k →
      messages.MessageHeader.decode data = some (h, rest) →
      h.session_id ≠ s.my_session_id →
      s.decode_message dec data = none) := by
  constructor
  · intro hk
    simp [session.Session.decode_message, hk]
  · intro k h rest hk hh hne
    simp [session.Session.decode_message, hk, hh, hne]

/-- C4 witness: with a decrypt key installed, a datagram carrying session
id 1 against `my_session_id = 0` is rejected. -/
theorem C4_session_decode_message_witness :
    session.Session.decode_message (fun _ _ _ _ => none)
      { session_id := 0, my_session_id := 0, counter := 1, local_node := none,
        remote_node := none, encrypt_key := none,
        decrypt_key := some (List.replicate 16 0) }
      [0, 1, 0, 0, 0, 0, 0, 0] = none := by
  exact (C4_session_decode_message (fun _ _ _ _ => none) _ [0, 1, 0, 0, 0, 0, 0, 0]).2
    (List.replicate 16 0)
    { flags := 0, security_flags := 0, session_id := 1, message_counter := 0,
      source_node_id := none, destination_node_id := none } []
    (by rfl) (by decide) (by decide)

/-- C4 counterexample: the claim demands an error for *every* datagram
whose header session id differs from `my_session_id`, but with no decrypt
key installed the mismatching datagram is returned unchanged. -/
theorem C4_session_decode_message_counterexample :
    session.Session.decode_message (fun _ _ _ _ => none)
      { session_id := 0, my_session_id := 0, counter := 1, local_node := none,
        remote_node := none, encrypt_key := none, decrypt_key := none }
      [0, 1, 0, 0, 0, 0, 0, 0] = some [0, 1, 0, 0, 0, 0, 0, 0] ∧
    (messages.MessageHeader.decode [0, 1, 0, 0, 0, 0, 0, 0]).map
      (fun p => p.1.session_id) = some 1 ∧
    (1 : Nat) ≠ 0 := by
  refine ⟨by rfl, by decide, by decide⟩

namespace bytes

theorem readU32le_u32le_append (c : Nat) (r : List Nat) :
    readU32le (u32le c ++ r) = some (c % 2 ^ 32, r) := by
  have h := readU32le_cons (c % 256) (c / 256 % 256) (c / 65536 % 256)
    (c / 16777216 % 256) r
  have hval : c % 256 + 256 * (c / 256 % 256 + 256 *
      (c / 65536 % 256 + 256 * (c / 16777216 % 256))) = c % 4294967296 := by
    omega
  simpa [u32le, hval] using h

end bytes

namespace session

/-- The counter field of an `encode_message` datagram: the four bytes at
offset 4 of the message header hold the message counter (little-endian),
whatever the optional node-id fields hold. -/
theorem encode_message_header_counter (enc : CcmFn) (s : Session) (data : List Nat)
    (hk : s.encrypt_key = none) :
    ((s.encode_message enc data).1.bind
      (fun d => (bytes.readU32le (d.drop 4)).map (fun p => p.1))) =
      some (s.counter % 2 ^ 32) := by
  simp only [Session.encode_message, hk, Option.bind_some, Option.some_bind]
  have hshape :
      (messages.MessageHeader.encode
        { flags := 0, security_flags := 0, session_id := s.session_id,
          message_counter := s.counter, source_node_id := s.local_node,
          destination_node_id := s.remote_node } ++ data).drop 4 =
      bytes.u32le s.counter ++
        (((match s.local_node with
           | some sn => if sn.length = 8 then sn else []
           | none => []) ++
          (match s.remote_node with
           | some dn => dn
           | none => [])) ++ data) := by
    simp [messages.MessageHeader.encode, bytes.u16le]
  rw [hshape, bytes.readU32le_u32le_append]
  rfl

end session

/-- C5 (amended): a freshly created session's 32-bit counter starts at
whatever `rand::random::<u32>()` returned — zero included, there is no
lower bound — and across `N` successive `encode_message` calls the
counters placed in the message headers are exactly
`c₀, c₀+1, …, c₀+N−1` reduced modulo `2^32`, in order. -/
theorem C5_session_counters (enc : session.CcmFn) (s : session.Session)
    (data : List Nat) (N : Nat) (hk : s.encrypt_key = none) :
    ((s.encodeN enc data N).1.map
      (fun o => o.bind (fun d => (bytes.readU32le (d.drop 4)).map (fun p => p.1)))) =
      (List.range N).map (fun i => some ((s.counter + i) % 2 ^ 32)) := by
  induction N generalizing s with
  | zero => simp [session.Session.encodeN]
  | succ n ih =>
    have hke : ({ s with counter := (s.counter + 1) % 2 ^ 32 } :
        session.Session).encrypt_key = none := hk
    have hhead := session.encode_message_header_counter enc s data hk
    have htail := ih { s with counter := (s.counter + 1) % 2 ^ 32 } hke
    simp only [session.Session.encodeN]
    have hs2 : (session.Session.encode_message enc s data).2 =
        { s with counter := (s.counter + 1) % 2 ^ 32 } := rfl
    rw [List.range_succ_eq_map]
    simp only [List.map_cons, List.map_map, hs2, List.cons.injEq]
    refine ⟨by simpa using hhead, ?_⟩
    rw [htail]
    apply List.map_congr_left
    intro i _
    simp only [Function.comp]
    congr 1
    omega

/-- C5 counterexample: the claim requires `c₀ ≥ 1`, but `Session::new`
seeds the counter with a raw `rand::random::<u32>()`, which admits zero:
the session created from random value 0 starts at counter 0. -/
theorem C5_session_counters_counterexample :
    (session.Session.new 0).counter = 0 ∧ ¬ 1 ≤ (session.Session.new 0).counter :=
  ⟨by rfl, by decide⟩

/-- C5 witness: three sends on a session starting at counter `2^32 − 1`
use exactly the counters `2^32 − 1, 0, 1`. -/
theorem C5_session_counters_witness :
    (((session.Session.new (2 ^ 32 - 1)).encodeN (fun _ _ _ _ => none) [5] 3).1.map
      (fun o => o.bind (fun d => (bytes.readU32le (d.drop 4)).map (fun p => p.1)))) =
      [some (2 ^ 32 - 1), some 0, some 1] := by
  have h := C5_session_counters (fun _ _ _ _ => none)
    (session.Session.new (2 ^ 32 - 1)) [5] 3 (by rfl)
  rw [h]
  decide

namespace transport

/-- Appending to a registered peer's queue. -/
theorem lookup_push_to_peer (conns : Connections) (addr : String)
    (q : List (List Nat)) (buf : List Nat)
    (hreg : lookup_queue conns addr = some q) :
    lookup_queue (push_to_peer conns addr buf) addr = some (q ++ [buf]) := by
  induction conns with
  | nil => simp [lookup_queue] at hreg
  | cons hd rest ih =>
    obtain ⟨a, qa⟩ := hd
    by_cases ha : a = addr
    · subst ha
      simp [lookup_queue] at hreg
      subst hreg
      simp [push_to_peer, lookup_queue]
    · simp [lookup_queue, ha] at hreg
      simp [push_to_peer, lookup_queue, ha, ih hreg]

end transport

/-- C7 (amended): a datagram arriving from a peer with a registered
connection is appended to that connection's queue and `Connection::receive`
hands it back — byte-for-byte only when the datagram is at most 1024
bytes, the size of the `vec![0u8; 1024]` receive buffer (`recv_from`
truncates anything longer, so the spec's 1500-byte Matter datagrams do
not survive intact; see the counterexample). -/
theorem C7_transport_delivery (conns : transport.Connections) (addr : String)
    (q : List (List Nat)) (d : List Nat)
    (hreg : transport.lookup_queue conns addr = some q)
    (hlen : d.length ≤ 1024) :
    transport.lookup_queue (transport.read_from_socket_iteration conns addr d) addr =
      some (q ++ [d]) ∧
    (q = [] →
      transport.Connection.receive (q ++ [d]) = some d) := by
  have htake : d.take 1024 = d := List.take_of_length_le hlen
  constructor
  · rw [transport.read_from_socket_iteration, htake]
    exact transport.lookup_push_to_peer conns addr q d hreg
  · intro hq
    subst hq
    rfl

/-- C7 witness: a 3-byte datagram reaches the registered peer's queue
unmodified. -/
theorem C7_transport_delivery_witness :
    (let addr1 : String := "a"
     transport.lookup_queue
       (transport.read_from_socket_iteration [(addr1, [])] addr1 [1, 2, 3]) addr1 =
         some [[1, 2, 3]] ∧
     transport.Connection.receive [[1, 2, 3]] = some [1, 2, 3]) := by
  have h := C7_transport_delivery [(("a" : String), [])] "a" [] [1, 2, 3]
    (by rfl) (by decide)
  exact ⟨h.1, h.2 rfl⟩

set_option maxRecDepth 4000 in
/-- C7 counterexample: the claim promises delivery of datagrams up to
1500 bytes unmodified, but a 1500-byte datagram is truncated to its first
1024 bytes by the receive buffer. -/
theorem C7_transport_delivery_counterexample :
    (List.replicate 1500 1).length ≤ 1500 ∧
    transport.lookup_queue
      (transport.read_from_socket_iteration [(("a" : String), [])] ("a")
        (List.replicate 1500 1)) ("a") = some [List.replicate 1024 1] ∧
    List.replicate 1024 1 ≠ List.replicate 1500 1 := by
  refine ⟨by rw [List.length_replicate], ?_, ?_⟩
  · rw [transport.read_from_socket_iteration, List.take_replicate]
    have hmin : min 1024 1500 = 1024 := by norm_num
    rw [hmin]
    rfl
  · intro h
    have hlen := congrArg List.length h
    rw [List.length_replicate, List.length_replicate] at hlen
    omega

/-- C2: SPAKE2+ agreement.  For every passcode/salt/iteration input (the
PBKDF2 and scalar-reduction functions are shared), a prover running
`Engine::start` then `Engine::finish` against a responder that follows
the same TT construction (the `VerifierContext` of the source's test
module), with the shares `X` and `Y` exchanged, derives cross-matching
session keys: the prover's `encrypt_key` equals the responder's decrypt
key and the prover's `decrypt_key` equals the responder's encrypt key;
moreover the prover accepts exactly the responder confirmation
`cB = HMAC(KcB, X)` — `finish` succeeds on it and on no other value.
Stated over any commutative ring of scalars acting on the abstract P-256
group. -/
theorem C2_spake2p_agreement
    {Scalar : Type} [CommRing Scalar] {Point : Type} [AddCommGroup Point]
    [Module Scalar Point]
    (sha256 : List Nat → List Nat)
    (hkdf_sha256 : List Nat → List Nat → List Nat → Nat → List Nat)
    (hmac_sha256 : List Nat → List Nat → List Nat)
    (pbkdf2_hmac : List Nat → List Nat → Nat → List Nat)
    (p256_scalar_from_40_bytes : List Nat → Scalar)
    (pointBytes : Point → List Nat) (scalarBytes : Scalar → List Nat)
    (Ggen : Point) (engine : spake2p.Engine Point)
    (key salt : List Nat) (iterations : Nat) (seed : List Nat) (xr yr : Scalar) :
    ∀ (p0 : spake2p.Context Scalar Point) (v0 v1 : spake2p.VerifierContext Scalar Point),
      p0 = spake2p.Engine.start pbkdf2_hmac p256_scalar_from_40_bytes Ggen engine
        key salt iterations xr →
      v0 = spake2p.VerifierContext.start pbkdf2_hmac p256_scalar_from_40_bytes Ggen
        key salt iterations engine yr →
      v1 = spake2p.VerifierContext.finish sha256 hkdf_sha256 hmac_sha256 pointBytes
        scalarBytes { v0 with x := p0.x } seed engine →
      ∃ ctx2 : spake2p.Context Scalar Point,
        spake2p.Engine.finish sha256 hkdf_sha256 hmac_sha256 pointBytes scalarBytes
          engine { p0 with y := v0.y } seed (v1.cb.getD []) = .ok ctx2 ∧
        ctx2.encrypt_key = v1.decrypt_key ∧
        ctx2.decrypt_key = v1.encrypt_key ∧
        (∀ (cb2 : List Nat) (ctx3 : spake2p.Context Scalar Point),
          spake2p.Engine.finish sha256 hkdf_sha256 hmac_sha256 pointBytes scalarBytes
            engine { p0 with y := v0.y } seed cb2 = .ok ctx3 → cb2 = v1.cb.getD []) := by
  intro p0 v0 v1 hp0 hv0 hv1
  subst hp0 hv0 hv1
  simp only [spake2p.Engine.start, spake2p.VerifierContext.start,
    spake2p.VerifierContext.finish, spake2p.Engine.finish]
  set w0 : Scalar := p256_scalar_from_40_bytes ((pbkdf2_hmac key salt iterations).take 40) with hw0def
  set w1 : Scalar := p256_scalar_from_40_bytes
    (((pbkdf2_hmac key salt iterations).drop 40).take 40) with hw1def
  have hznP : (w0 • engine.n + yr • Ggen) + -(w0 • engine.n) = yr • Ggen := by abel
  have hznV : (w0 • engine.m + xr • Ggen) + -(w0 • engine.m) = xr • Ggen := by abel
  have hzP : xr • (yr • Ggen) = (xr * yr) • Ggen := smul_smul xr yr Ggen
  have hzV : yr • (xr • Ggen) = (xr * yr) • Ggen := by rw [smul_smul, mul_comm]
  have hvP : w1 • (yr • Ggen) = (w1 * yr) • Ggen := smul_smul w1 yr Ggen
  have hvV : yr • (w1 • Ggen) = (w1 * yr) • Ggen := by rw [smul_smul, mul_comm]
  rw [hznP, hznV, hzP, hzV, hvP, hvV]
  simp only [Option.getD_some]
  rw [if_neg (by simp)]
  refine ⟨_, rfl, rfl, rfl, ?_⟩
  intro cb2 ctx3 h
  split at h
  · exact absurd h (by simp)
  · rename_i hne
    exact (not_not.mp hne).symm

/-- C2 witness: the agreement theorem run on the integer instantiation —
the prover accepts the responder's confirmation and the two 16-byte key
slots cross-match. -/
theorem C2_spake2p_agreement_witness :
    ∃ ctx2 : spake2p.Context Int Int,
      spake2p.Engine.finish spake2p.idHash spake2p.repHkdf spake2p.catHmac
        spake2p.intBytes spake2p.intBytes spake2p.engineZ
        { spake2p.proverZ with y := spake2p.verifierZ.y } []
        (spake2p.verifierZfin.cb.getD []) = .ok ctx2 ∧
      ctx2.encrypt_key = spake2p.verifierZfin.decrypt_key ∧
      ctx2.decrypt_key = spake2p.verifierZfin.encrypt_key := by
  obtain ⟨ctx2, h1, h2, h3, _⟩ := C2_spake2p_agreement spake2p.idHash spake2p.repHkdf
    spake2p.catHmac spake2p.zeroPbkdf spake2p.intScalarOf spake2p.intBytes
    spake2p.intBytes 1 spake2p.engineZ [] [] 1 [] 5 7
    spake2p.proverZ spake2p.verifierZ spake2p.verifierZfin rfl rfl rfl
  exact ⟨ctx2, h1, h2, h3⟩

namespace active_connection

/-- A counter just inserted survives the eviction loop (the eviction pops
from the front and the new counter sits at the back), provided the cache
capacity is at least one. -/
theorem mem_insert_self (rc : ReceivedCounters) (c : Nat)
    (hmax : 1 ≤ rc.max_size) (hnew : c ∉ rc.order) :
    c ∈ (rc.insert c).2.order := by
  simp only [ReceivedCounters.insert]
  rw [if_neg hnew]
  have hd : (rc.order ++ [c]).length - rc.max_size ≤ rc.order.length := by
    simp
    omega
  rw [List.drop_append_of_le_length hd]
  simp

end active_connection

namespace active_connection

/-- First receipt of a fresh reliability-flagged, non-standalone-ack
message on a cleartext session: one ack is sent, one message is
delivered, the counter is cached, the session keys are untouched. -/
theorem process_incoming_first (enc dec : session.CcmFn) (st : ConnState)
    (data : List Nat) (msg : messages.Message)
    (hdec : st.session.decrypt_key = none)
    (henc : st.session.encrypt_key = none)
    (hmsg : messages.Message.decode data = some msg)
    (hrel : msg.protocol_header.exchange_flags &&&
      messages.ProtocolMessageHeader.FLAG_RELIABILITY ≠ 0)
    (hnotack : ¬(msg.protocol_header.protocol_id =
        messages.ProtocolMessageHeader.PROTOCOL_ID_SECURE_CHANNEL ∧
      msg.protocol_header.opcode = messages.ProtocolMessageHeader.OPCODE_ACK))
    (hnew : msg.message_header.message_counter ∉ st.received_counters.order) :
    (process_incoming enc dec st data).sent = st.sent ++
      [(st.session.encode_message enc (messages.ack msg.protocol_header.exchange_id
        msg.message_header.message_counter)).1.getD []] ∧
    (process_incoming enc dec st data).delivered = st.delivered ++
      [if msg.protocol_header.exchange_id ∈ st.pending_exchanges then
        Delivery.toCaller msg.protocol_header.exchange_id msg
      else Delivery.toEvent msg] ∧
    (process_incoming enc dec st data).received_counters =
      (st.received_counters.insert msg.message_header.message_counter).2 ∧
    (process_incoming enc dec st data).session.decrypt_key = st.session.decrypt_key ∧
    (process_incoming enc dec st data).session.encrypt_key = st.session.encrypt_key := by
  by_cases hack : msg.protocol_header.exchange_flags &&&
      messages.ProtocolMessageHeader.FLAG_ACK ≠ 0 <;>
    by_cases hex : msg.protocol_header.exchange_id ∈ st.pending_exchanges <;>
      refine ⟨?_, ?_, ?_, ?_, ?_⟩ <;>
        simp [process_incoming, session.Session.decode_message, hdec, hmsg, hack, hex,
          ReceivedCounters.insert, hnew, hrel, hnotack, send_ack,
          session.Session.encode_message, henc]

/-- A duplicate (already-cached counter): one ack is sent and nothing is
delivered; the counter cache is unchanged. -/
theorem process_incoming_duplicate (enc dec : session.CcmFn) (st : ConnState)
    (data : List Nat) (msg : messages.Message)
    (hdec : st.session.decrypt_key = none)
    (henc : st.session.encrypt_key = none)
    (hmsg : messages.Message.decode data = some msg)
    (hdup : msg.message_header.message_counter ∈ st.received_counters.order) :
    (process_incoming enc dec st data).sent = st.sent ++
      [(st.session.encode_message enc (messages.ack msg.protocol_header.exchange_id
        msg.message_header.message_counter)).1.getD []] ∧
    (process_incoming enc dec st data).delivered = st.delivered := by
  by_cases hack : msg.protocol_header.exchange_flags &&&
      messages.ProtocolMessageHeader.FLAG_ACK ≠ 0 <;>
    refine ⟨?_, ?_⟩ <;>
      simp [process_incoming, session.Session.decode_message, hdec, hmsg, hack,
        ReceivedCounters.insert, hdup, send_ack, session.Session.encode_message, henc]

end active_connection

/-- C6 (amended): feeding the same decoded datagram twice to
`process_incoming` delivers exactly one message (to the waiting caller or
the event channel) and sends exactly two standalone acks — provided the
message carries the reliability flag (the first-receipt ack is sent only
then; without it only the duplicate ack goes out, see the counterexample)
and is not itself a standalone ack. -/
theorem C6_duplicate_suppression (enc dec : session.CcmFn)
    (st : active_connection.ConnState) (data : List Nat) (msg : messages.Message)
    (hdec : st.session.decrypt_key = none)
    (henc : st.session.encrypt_key = none)
    (hmsg : messages.Message.decode data = some msg)
    (hrel : msg.protocol_header.exchange_flags &&&
      messages.ProtocolMessageHeader.FLAG_RELIABILITY ≠ 0)
    (hnotack : ¬(msg.protocol_header.protocol_id =
        messages.ProtocolMessageHeader.PROTOCOL_ID_SECURE_CHANNEL ∧
      msg.protocol_header.opcode = messages.ProtocolMessageHeader.OPCODE_ACK))
    (hnew : msg.message_header.message_counter ∉ st.received_counters.order)
    (hmax : 1 ≤ st.received_counters.max_size) :
    ∃ (a1 a2 : List Nat) (d1 : active_connection.Delivery),
      (active_connection.process_incoming enc dec
        (active_connection.process_incoming enc dec st data) data).sent =
        st.sent ++ [a1, a2] ∧
      (active_connection.process_incoming enc dec
        (active_connection.process_incoming enc dec st data) data).delivered =
        st.delivered ++ [d1] := by
  obtain ⟨hs1, hd1, hr1, hk1, he1⟩ :=
    active_connection.process_incoming_first enc dec st data msg hdec henc hmsg hrel
      hnotack hnew
  have hdec1 : (active_connection.process_incoming enc dec st data).session.decrypt_key =
      none := by rw [hk1, hdec]
  have henc1 : (active_connection.process_incoming enc dec st data).session.encrypt_key =
      none := by rw [he1, henc]
  have hdup : msg.message_header.message_counter ∈
      (active_connection.process_incoming enc dec st data).received_counters.order := by
    rw [hr1]
    exact active_connection.mem_insert_self st.received_counters
      msg.message_header.message_counter hmax hnew
  obtain ⟨hs2, hd2⟩ := active_connection.process_incoming_duplicate enc dec
    (active_connection.process_incoming enc dec st data) data msg hdec1 henc1 hmsg hdup
  refine ⟨(session.Session.encode_message enc st.session
      (messages.ack msg.protocol_header.exchange_id
        msg.message_header.message_counter)).1.getD [],
    (session.Session.encode_message enc
      (active_connection.process_incoming enc dec st data).session
      (messages.ack msg.protocol_header.exchange_id
        msg.message_header.message_counter)).1.getD [],
    (if msg.protocol_header.exchange_id ∈ st.pending_exchanges then
      active_connection.Delivery.toCaller msg.protocol_header.exchange_id msg
    else active_connection.Delivery.toEvent msg), ?_, ?_⟩
  · rw [hs2, hs1, List.append_assoc]
    rfl
  · rw [hd2, hd1]

/-- C6 witness: a concrete reliability-flagged Secure Channel message
(counter 9, exchange 1) processed twice on a fresh cleartext state:
one delivery, two acks. -/
theorem C6_duplicate_suppression_witness :
    ∃ (a1 a2 : List Nat) (d1 : active_connection.Delivery),
      (active_connection.process_incoming (fun _ _ _ _ => none) (fun _ _ _ _ => none)
        (active_connection.process_incoming (fun _ _ _ _ => none) (fun _ _ _ _ => none)
          { session :=
              { session_id := 0, my_session_id := 0, counter := 4,
                local_node := some [0, 0, 0, 0, 0, 0, 0, 0], remote_node := none,
                encrypt_key := none, decrypt_key := none },
            pending_exchanges := [], unacked := [],
            received_counters := active_connection.ReceivedCounters.new 32,
            sent := [], delivered := [] }
          [0, 0, 0, 0, 9, 0, 0, 0, 5, 0x20, 1, 0, 0, 0, 0x15, 0x18])
        [0, 0, 0, 0, 9, 0, 0, 0, 5, 0x20, 1, 0, 0, 0, 0x15, 0x18]).sent =
        [] ++ [a1, a2] ∧
      (active_connection.process_incoming (fun _ _ _ _ => none) (fun _ _ _ _ => none)
        (active_connection.process_incoming (fun _ _ _ _ => none) (fun _ _ _ _ => none)
          { session :=
              { session_id := 0, my_session_id := 0, counter := 4,
                local_node := some [0, 0, 0, 0, 0, 0, 0, 0], remote_node := none,
                encrypt_key := none, decrypt_key := none },
            pending_exchanges := [], unacked := [],
            received_counters := active_connection.ReceivedCounters.new 32,
            sent := [], delivered := [] }
          [0, 0, 0, 0, 9, 0, 0, 0, 5, 0x20, 1, 0, 0, 0, 0x15, 0x18])
        [0, 0, 0, 0, 9, 0, 0, 0, 5, 0x20, 1, 0, 0, 0, 0x15, 0x18]).delivered =
        [] ++ [d1] := by
  exact C6_duplicate_suppression (fun _ _ _ _ => none) (fun _ _ _ _ => none)
    { session :=
        { session_id := 0, my_session_id := 0, counter := 4,
          local_node := some [0, 0, 0, 0, 0, 0, 0, 0], remote_node := none,
          encrypt_key := none, decrypt_key := none },
      pending_exchanges := [], unacked := [],
      received_counters := active_connection.ReceivedCounters.new 32,
      sent := [], delivered := [] }
    [0, 0, 0, 0, 9, 0, 0, 0, 5, 0x20, 1, 0, 0, 0, 0x15, 0x18]
    { message_header :=
        { flags := 0, security_flags := 0, session_id := 0,
          message_counter := 9, source_node_id := none, destination_node_id := none },
      protocol_header :=
        { exchange_flags := 5, opcode := 0x20, exchange_id := 1,
          protocol_id := 0, ack_counter := 0 },
      payload := [0x15, 0x18], tlv := .mk 0 (.List []), status_report_info := none }
    (by rfl) (by rfl) (by rfl) (by decide) (by decide) (by decide) (by decide)

/-- C6 counterexample: the same datagram without the reliability flag
(exchange flags 1), processed twice, still delivers exactly once but
sends only ONE ack — the duplicate-drop ack — not two: no ack is sent on
first receipt. -/
theorem C6_duplicate_suppression_counterexample :
    ((active_connection.process_incoming (fun _ _ _ _ => none) (fun _ _ _ _ => none)
        (active_connection.process_incoming (fun _ _ _ _ => none) (fun _ _ _ _ => none)
          { session :=
              { session_id := 0, my_session_id := 0, counter := 4,
                local_node := some [0, 0, 0, 0, 0, 0, 0, 0], remote_node := none,
                encrypt_key := none, decrypt_key := none },
            pending_exchanges := [], unacked := [],
            received_counters := active_connection.ReceivedCounters.new 32,
            sent := [], delivered := [] }
          [0, 0, 0, 0, 9, 0, 0, 0, 1, 0x20, 1, 0, 0, 0, 0x15, 0x18])
        [0, 0, 0, 0, 9, 0, 0, 0, 1, 0x20, 1, 0, 0, 0, 0x15, 0x18]).sent.length = 1 ∧
     (active_connection.process_incoming (fun _ _ _ _ => none) (fun _ _ _ _ => none)
        (active_connection.process_incoming (fun _ _ _ _ => none) (fun _ _ _ _ => none)
          { session :=
              { session_id := 0, my_session_id := 0, counter := 4,
                local_node := some [0, 0, 0, 0, 0, 0, 0, 0], remote_node := none,
                encrypt_key := none, decrypt_key := none },
            pending_exchanges := [], unacked := [],
            received_counters := active_connection.ReceivedCounters.new 32,
            sent := [], delivered := [] }
          [0, 0, 0, 0, 9, 0, 0, 0, 1, 0x20, 1, 0, 0, 0, 0x15, 0x18])
        [0, 0, 0, 0, 9, 0, 0, 0, 1, 0x20, 1, 0, 0, 0, 0x15, 0x18]).delivered.length = 1 ∧
     (1 : Nat) ≠ 2) := by
  refine ⟨by rfl, by rfl, by decide⟩
